import Mathlib

set_option maxRecDepth 10000

/-!
Shallow embedding of the Galaxy bus supervisor (Rust) and proofs about it.

Conventions used throughout this development:
* A Rust `u8` is a `Nat` that the surrounding invariants keep below 256;
  where a Rust cast `as u8` truncates, we write `% 256` explicitly.
* The Rust `u16` CRC accumulator is a `Nat` reduced `% 65536` at each
  addition (release-mode wrapping semantics).
* Code that can panic (assertion failures, arithmetic underflow) is
  embedded with `Option`: `none` models the panic.
-/

namespace Galaxy

/-! ## CRC (src/serial/galaxy/crc.rs) -/

/-- Body of the end-around-carry folding loop of `galaxy_crc_vectored`:
`while acc > 0xFF { acc = (acc & 0xFF) + (acc >> 8) }`, run with explicit
fuel so that it is structurally recursive (and hence kernel-evaluable). -/
def crcFoldAux : Nat → Nat → Nat
  | 0, acc => acc
  | fuel + 1, acc =>
    if acc > 0xFF then crcFoldAux fuel ((acc % 256) + (acc / 256)) else acc

/-- The end-around-carry folding loop. Each iteration strictly decreases
`acc` (for `acc > 0xFF`, `acc % 256 + acc / 256 < acc`), so `acc` itself
bounds the number of iterations and is a sufficient fuel. -/
def crcFold (acc : Nat) : Nat := crcFoldAux acc acc

theorem crcFoldAux_congr :
    ∀ f f' acc, acc ≤ f → acc ≤ f' → crcFoldAux f acc = crcFoldAux f' acc := by
  intro f
  induction f with
  | zero =>
    intro f' acc hf hf'
    have : acc = 0 := by omega
    subst this
    cases f' with
    | zero => rfl
    | succ n => simp [crcFoldAux]
  | succ f ih =>
    intro f' acc hf hf'
    cases f' with
    | zero =>
      have : acc = 0 := by omega
      subst this
      simp [crcFoldAux]
    | succ n =>
      simp only [crcFoldAux]
      by_cases hacc : acc > 0xFF
      · simp only [if_pos hacc]
        have hdm : acc = 256 * (acc / 256) + acc % 256 := (Nat.div_add_mod acc 256).symm
        have hlt : acc % 256 + acc / 256 < acc := by omega
        exact ih n _ (by omega) (by omega)
      · simp only [if_neg hacc]

theorem crcFold_unfold (acc : Nat) :
    crcFold acc = if acc > 0xFF then crcFold ((acc % 256) + (acc / 256)) else acc := by
  unfold crcFold
  cases acc with
  | zero => simp [crcFoldAux]
  | succ n =>
    simp only [crcFoldAux]
    by_cases hacc : n + 1 > 0xFF
    · simp only [if_pos hacc]
      have hdm : n + 1 = 256 * ((n + 1) / 256) + (n + 1) % 256 :=
        (Nat.div_add_mod (n + 1) 256).symm
      exact crcFoldAux_congr n _ _ (by omega) (le_refl _)
    · simp only [if_neg hacc]

/-- Adding the bytes of one slice into the `u16` accumulator:
`for &c in vec { acc += c as u16 }` (wrapping `u16` addition). -/
def crcAddSlice (acc : Nat) (s : List Nat) : Nat :=
  s.foldl (fun a c => (a + c) % 65536) acc

/-- `galaxy_crc_vectored`: start at 0xAA, add each slice's bytes, fold the
high byte into the low byte after each slice, finally truncate to `u8`. -/
def galaxy_crc_vectored (vecs : List (List Nat)) : Nat :=
  (vecs.foldl (fun acc v => crcFold (crcAddSlice acc v)) 0xAA) % 256

/-- `galaxy_crc(msg) = galaxy_crc_vectored(&[msg])`. -/
def galaxy_crc (msg : List Nat) : Nat :=
  galaxy_crc_vectored [msg]

/-- `check_galaxy_crc` for byte slices: asserts the slice is non-empty
(`none` models the assertion panic), then compares the final byte with the
CRC of the preceding ones; `Except.error e` carries the expected CRC. -/
instance {e a : Type} [DecidableEq e] [DecidableEq a] :
    DecidableEq (Except e a) := fun x y =>
  match x, y with
  | .ok u, .ok v =>
    if h : u = v then isTrue (by rw [h]) else isFalse (fun hc => by cases hc; exact h rfl)
  | .error u, .error v =>
    if h : u = v then isTrue (by rw [h]) else isFalse (fun hc => by cases hc; exact h rfl)
  | .ok _, .error _ => isFalse (fun hc => by cases hc)
  | .error _, .ok _ => isFalse (fun hc => by cases hc)

def check_galaxy_crc (s : List Nat) : Option (Except Nat Unit) :=
  if 1 ≤ s.length then
    some (if s.getLastD 0 = galaxy_crc s.dropLast then Except.ok ()
          else Except.error (galaxy_crc s.dropLast))
  else none

theorem crcFold_le (acc : Nat) : crcFold acc ≤ 255 := by
  induction acc using Nat.strong_induction_on with
  | _ acc ih =>
    rw [crcFold_unfold]
    by_cases h : acc > 0xFF
    · rw [if_pos h]
      have hdm : acc = 256 * (acc / 256) + acc % 256 := (Nat.div_add_mod acc 256).symm
      exact ih _ (by omega)
    · rw [if_neg h]; omega

theorem crcFold_of_le {acc : Nat} (h : acc ≤ 255) : crcFold acc = acc := by
  rw [crcFold_unfold, if_neg (by omega)]

theorem crcFold_modeq (acc : Nat) : crcFold acc ≡ acc [MOD 255] := by
  induction acc using Nat.strong_induction_on with
  | _ acc ih =>
    rw [crcFold_unfold]
    by_cases h : acc > 0xFF
    · rw [if_pos h]
      have hdm : acc = 256 * (acc / 256) + acc % 256 := (Nat.div_add_mod acc 256).symm
      refine (ih _ (by omega)).trans ?_
      calc acc % 256 + acc / 256
          ≡ acc % 256 + 256 * (acc / 256) [MOD 255] := by
            exact Nat.ModEq.add_left _ (by
              calc acc / 256 = 1 * (acc / 256) := (one_mul _).symm
              _ ≡ 256 * (acc / 256) [MOD 255] :=
                Nat.ModEq.mul_right _ (by decide))
        _ = acc := by omega
    · rw [if_neg h]

theorem crcFold_pos : ∀ {acc : Nat}, 1 ≤ acc → 1 ≤ crcFold acc := by
  intro acc
  induction acc using Nat.strong_induction_on with
  | _ acc ih =>
    intro h
    rw [crcFold_unfold]
    by_cases hgt : acc > 0xFF
    · rw [if_pos hgt]
      have hdm : acc = 256 * (acc / 256) + acc % 256 := (Nat.div_add_mod acc 256).symm
      exact ih _ (by omega) (by omega)
    · rw [if_neg hgt]; exact h

/-- Two values in `[1, 255]` that agree modulo 255 are equal. -/
theorem eq_of_modeq_of_bounds {a b : Nat} (ha1 : 1 ≤ a) (ha2 : a ≤ 255)
    (hb1 : 1 ≤ b) (hb2 : b ≤ 255) (h : a ≡ b [MOD 255]) : a = b := by
  rcases Nat.le_total a b with hle | hle
  · have hdvd : (255 : Nat) ∣ b - a := (Nat.modEq_iff_dvd' hle).mp h
    rcases hdvd with ⟨k, hk⟩
    omega
  · have hdvd : (255 : Nat) ∣ a - b := (Nat.modEq_iff_dvd' hle).mp h.symm
    rcases hdvd with ⟨k, hk⟩
    omega

theorem crcFold_eq_crcFold_iff {a b : Nat} (ha : 1 ≤ a) (hb : 1 ≤ b) :
    crcFold a = crcFold b ↔ a ≡ b [MOD 255] := by
  constructor
  · intro h
    exact ((crcFold_modeq a).symm.trans (h ▸ crcFold_modeq b))
  · intro h
    exact eq_of_modeq_of_bounds (crcFold_pos ha) (crcFold_le a)
      (crcFold_pos hb) (crcFold_le b)
      (((crcFold_modeq a).trans h).trans (crcFold_modeq b).symm)

/-- With no `u16` wrap, adding a slice is plain addition of its sum. -/
theorem crcAddSlice_eq_add {acc : Nat} {s : List Nat}
    (h : acc + s.sum ≤ 65535) : crcAddSlice acc s = acc + s.sum := by
  induction s generalizing acc with
  | nil => simp [crcAddSlice]
  | cons c rest ih =>
    have hsum : (c :: rest).sum = c + rest.sum := by simp
    have h1 : (acc + c) % 65536 = acc + c := Nat.mod_eq_of_lt (by omega)
    have : crcAddSlice acc (c :: rest)
        = crcAddSlice ((acc + c) % 65536) rest := rfl
    rw [this, h1, ih (by omega)]
    omega

theorem sum_le_of_bytes {s : List Nat} (h : ∀ c ∈ s, c < 256) :
    s.sum ≤ 255 * s.length := by
  induction s with
  | nil => simp
  | cons c rest ih =>
    have hc : c < 256 := h c (List.mem_cons_self c rest)
    have := ih (fun x hx => h x (List.mem_cons_of_mem c hx))
    simp only [List.sum_cons, List.length_cons]
    omega

/-- Folding an intermediate accumulator and continuing agrees with folding
once at the end (the partition-invariance core fact), in the wrap-free
regime. -/
theorem crcFold_crcFold_add {a b : Nat} (ha : 1 ≤ a) :
    crcFold (crcFold a + b) = crcFold (a + b) := by
  have h1 : 1 ≤ crcFold a + b := by have := crcFold_pos ha; omega
  rw [crcFold_eq_crcFold_iff h1 (by omega)]
  exact Nat.ModEq.add_right b (crcFold_modeq a)

/-- With no `u16` wrap, `galaxy_crc` is the fold of `0xAA` plus the sum. -/
theorem galaxy_crc_eq_fold {l : List Nat} (h : 0xAA + l.sum ≤ 65535) :
    galaxy_crc l = crcFold (0xAA + l.sum) := by
  unfold galaxy_crc galaxy_crc_vectored
  simp only [List.foldl_cons, List.foldl_nil]
  rw [crcAddSlice_eq_add h]
  exact Nat.mod_eq_of_lt (lt_of_le_of_lt (crcFold_le _) (by norm_num))

theorem galaxy_crc_vectored_foldl :
    ∀ (vs : List (List Nat)) (acc : Nat), 1 ≤ acc → acc ≤ 255 →
      (vs.flatten).sum ≤ 65280 →
      vs.foldl (fun a v => crcFold (crcAddSlice a v)) acc
        = crcFold (acc + (vs.flatten).sum) := by
  intro vs
  induction vs with
  | nil =>
    intro acc h1 h2 _
    simp only [List.foldl_nil, List.flatten, List.sum_nil, Nat.add_zero]
    exact (crcFold_of_le h2).symm
  | cons l rest ih =>
    intro acc h1 h2 hsum
    have hjoin : ((l :: rest).flatten).sum = l.sum + (rest.flatten).sum := by
      simp [List.flatten]
    rw [hjoin] at hsum
    simp only [List.foldl_cons]
    rw [crcAddSlice_eq_add (by omega)]
    have ha' : 1 ≤ crcFold (acc + l.sum) := crcFold_pos (by omega)
    rw [ih _ ha' (crcFold_le _) (by omega)]
    rw [crcFold_crcFold_add (by omega : 1 ≤ acc + l.sum)]
    rw [hjoin, Nat.add_assoc]

/-- C9 (amended): scatter-gather CRC equals the CRC of the concatenation,
provided the bytes fit in `u8` and the total length is at most 256 so the
`u16` accumulator cannot wrap. -/
theorem galaxy_crc_vectored_eq_join (vs : List (List Nat))
    (hb : ∀ l ∈ vs, ∀ c ∈ l, c < 256) (hlen : vs.flatten.length ≤ 256) :
    galaxy_crc_vectored vs = galaxy_crc vs.flatten := by
  have hbj : ∀ c ∈ vs.flatten, c < 256 := by
    intro c hc
    rw [List.mem_flatten] at hc
    obtain ⟨l, hl, hcl⟩ := hc
    exact hb l hl c hcl
  have hsum : (vs.flatten).sum ≤ 65280 := by
    have h1 := sum_le_of_bytes hbj
    have h2 : 255 * vs.flatten.length ≤ 255 * 256 := Nat.mul_le_mul_left _ hlen
    omega
  unfold galaxy_crc_vectored
  rw [galaxy_crc_vectored_foldl vs 0xAA (by norm_num) (by norm_num) hsum]
  rw [galaxy_crc_eq_fold (by omega)]
  exact Nat.mod_eq_of_lt (lt_of_le_of_lt (crcFold_le _) (by norm_num))

/-- C9 witness: the scenario-1 frame split into two slices. -/
theorem galaxy_crc_vectored_eq_join_witness :
    galaxy_crc_vectored [[0x10], [0x00, 0x0E]]
      = galaxy_crc (([[0x10], [0x00, 0x0E]] : List (List Nat)).flatten) :=
  galaxy_crc_vectored_eq_join _ (by decide) (by decide)

/-- C9 counterexample: for a slice long enough to wrap the `u16`
accumulator (258 bytes of 0xFF), the CRC of the concatenation differs from
the scatter-gather CRC of a two-way split, refuting unconditional
partition invariance. -/
theorem galaxy_crc_vectored_split_counterexample :
    galaxy_crc_vectored [List.replicate 129 0xFF, List.replicate 129 0xFF]
      ≠ galaxy_crc (List.replicate 129 0xFF ++ List.replicate 129 0xFF) := by
  decide

theorem sum_set_add {l : List Nat} : ∀ {i : Nat}, i < l.length → ∀ (v : Nat),
    (l.set i v).sum + l.getD i 0 = l.sum + v := by
  induction l with
  | nil => intro i hi; exact absurd hi (by simp)
  | cons c rest ih =>
    intro i hi v
    cases i with
    | zero => simp [List.set]; omega
    | succ j =>
      have hj : j < rest.length := by simpa using hi
      simp only [List.set, List.sum_cons, List.getD_cons_succ]
      have := ih hj v
      omega

theorem set_bytes_lt {l : List Nat} {i v : Nat} (hb : ∀ c ∈ l, c < 256)
    (hv : v < 256) : ∀ c ∈ l.set i v, c < 256 := by
  intro c hc
  rcases List.mem_or_eq_of_mem_set hc with h | h
  · exact hb c h
  · omega

theorem getD_lt_of_bytes {l : List Nat} : ∀ {i : Nat}, (∀ c ∈ l, c < 256) →
    i < l.length → l.getD i 0 < 256 := by
  induction l with
  | nil => intro i _ hi; exact absurd hi (by simp)
  | cons c rest ih =>
    intro i hb hi
    cases i with
    | zero => exact hb c (List.mem_cons_self c rest)
    | succ j =>
      have hj : j < rest.length := by simpa using hi
      simpa using ih (fun x hx => hb x (List.mem_cons_of_mem c hx)) hj

/-- C5 (amended): appending `galaxy_crc s` to `s` always passes
`check_galaxy_crc`; and (for `s` short enough that the `u16` accumulator
cannot wrap, e.g. length ≤ 256) changing exactly one byte of `s ∥ crc(s)`
to a different value still passes the check precisely when the changed
byte lies in `s` and the old and new values are congruent modulo 255
(i.e. the 0x00 ↔ 0xFF change); every other single-byte change is
rejected. -/
theorem check_galaxy_crc_roundtrip (s : List Nat) (hne : s ≠ [])
    (hb : ∀ c ∈ s, c < 256) :
    check_galaxy_crc (s ++ [galaxy_crc s]) = some (Except.ok ()) ∧
    (s.length ≤ 256 →
      ∀ i, i < s.length + 1 → ∀ b, b < 256 → b ≠ (s ++ [galaxy_crc s]).getD i 0 →
        (check_galaxy_crc ((s ++ [galaxy_crc s]).set i b) = some (Except.ok ()) ↔
          (i < s.length ∧ b % 255 = s.getD i 0 % 255))) := by
  constructor
  · unfold check_galaxy_crc
    rw [if_pos (by simp)]
    rw [List.dropLast_concat]
    simp
  · intro hlen i hi b hb256 hbne
    have hsum : s.sum ≤ 65280 := by
      have h1 := sum_le_of_bytes hb
      have h2 : 255 * s.length ≤ 255 * 256 := Nat.mul_le_mul_left _ hlen
      omega
    rcases Nat.lt_or_ge i s.length with hilt | hige
    · -- the changed byte is inside s
      have hset : (s ++ [galaxy_crc s]).set i b = s.set i b ++ [galaxy_crc s] := by
        rw [List.set_append]
        simp [hilt]
      rw [hset]
      unfold check_galaxy_crc
      rw [if_pos (by simp)]
      rw [List.dropLast_concat]
      have hsum' : (s.set i b).sum ≤ 65280 := by
        have h1 := sum_le_of_bytes (@set_bytes_lt s i b hb hb256)
        have h2 : 255 * (s.set i b).length ≤ 255 * 256 := by
          rw [List.length_set]; exact Nat.mul_le_mul_left _ hlen
        omega
      have hrel := sum_set_add hilt b
      rw [galaxy_crc_eq_fold (by omega), galaxy_crc_eq_fold (by omega)]
      simp only [List.getLastD_concat, Option.some.injEq]
      constructor
      · intro h
        have heq : crcFold (0xAA + s.sum) = crcFold (0xAA + (s.set i b).sum) := by
          by_contra hne2
          simp [if_neg hne2] at h
        rw [crcFold_eq_crcFold_iff (by omega) (by omega)] at heq
        have hmod : (0xAA + s.sum) % 255 = (0xAA + (s.set i b).sum) % 255 := heq
        exact ⟨hilt, by omega⟩
      · rintro ⟨-, hmod⟩
        have heq : crcFold (0xAA + s.sum) = crcFold (0xAA + (s.set i b).sum) := by
          rw [crcFold_eq_crcFold_iff (by omega) (by omega)]
          show (0xAA + s.sum) % 255 = (0xAA + (s.set i b).sum) % 255
          omega
        rw [if_pos heq]
    · -- the changed byte is the appended CRC byte
      have hieq : i = s.length := by omega
      subst hieq
      have hset : (s ++ [galaxy_crc s]).set s.length b = s ++ [b] := by
        rw [List.set_append]
        simp
      have hgetD : (s ++ [galaxy_crc s]).getD s.length 0 = galaxy_crc s := by
        rw [List.getD_append_right _ _ _ _ (le_refl _)]
        simp
      rw [hgetD] at hbne
      rw [hset]
      unfold check_galaxy_crc
      rw [if_pos (by simp)]
      rw [List.dropLast_concat]
      simp only [List.getLastD_concat, Option.some.injEq]
      rw [if_neg hbne]
      simp

/-- C5 witness: the scenario-1 frame round-trips through the checker. -/
theorem check_galaxy_crc_roundtrip_witness :
    check_galaxy_crc ([0x10, 0x00, 0x0E] ++ [galaxy_crc [0x10, 0x00, 0x0E]])
      = some (Except.ok ()) :=
  (check_galaxy_crc_roundtrip [0x10, 0x00, 0x0E] (by decide) (by decide)).1

/-- C5 counterexample: changing the single body byte of `[0x00] ∥ crc`
from 0x00 to 0xFF leaves the additive mod-255 checksum unchanged, so
`check_galaxy_crc` still returns `Ok`, refuting "flipping any single byte
yields Err". -/
theorem check_galaxy_crc_flip_counterexample :
    galaxy_crc [0x00] = 0xAA ∧ (0xFF : Nat) ≠ 0x00 ∧
    check_galaxy_crc (([0x00] ++ [galaxy_crc [0x00]]).set 0 0xFF)
      = some (Except.ok ()) := by
  decide

/-! ## Messages (src/serial/message.rs) -/

structure SerialMessage where
  recipient_address : Nat
  command : Nat
  additional_data : Option (List Nat)
  deriving DecidableEq

inductive DeserialisationError
  | MissingRecipient
  | MissingCommand
  | MissingCrc
  | CrcFailed
  deriving DecidableEq

namespace SerialMessage

/-- `impl GalaxyCRC for SerialMessage`: CRC over the header slice and the
optional additional-data slice. -/
def msgGalaxyCRC (m : SerialMessage) : Nat :=
  galaxy_crc_vectored
    (match m.additional_data with
     | some d => [[m.recipient_address, m.command], d]
     | none => [[m.recipient_address, m.command]])

def serialise_without_crc (m : SerialMessage) : List Nat :=
  [m.recipient_address, m.command] ++
    (match m.additional_data with
     | some d => d
     | none => [])

def serialise (m : SerialMessage) : List Nat :=
  m.serialise_without_crc ++ [galaxy_crc m.serialise_without_crc]

/-- `deserialise_unchecked`: reads recipient then command from an iterator,
collecting the remainder as additional data (`None` when empty). -/
def deserialise_unchecked (data : List Nat) :
    Except DeserialisationError SerialMessage :=
  match data with
  | [] => Except.error DeserialisationError.MissingRecipient
  | [_] => Except.error DeserialisationError.MissingCommand
  | r :: c :: rest =>
    Except.ok ⟨r, c, if rest.length > 0 then some rest else none⟩

/-- `deserialise`: returns `MissingCrc` for exactly two bytes, otherwise
parses `data[0 .. len−1]` and compares the final byte with the message
CRC. For the empty slice, `data.len() - 1` underflows `usize` and the
slicing panics; `none` models that panic. -/
def deserialise (data : List Nat) :
    Option (Except DeserialisationError SerialMessage) :=
  if data.length = 2 then some (Except.error DeserialisationError.MissingCrc)
  else if data.length = 0 then none
  else
    match deserialise_unchecked data.dropLast with
    | Except.error e => some (Except.error e)
    | Except.ok msg =>
      if msgGalaxyCRC msg ≠ data.getLastD 0 then
        some (Except.error DeserialisationError.CrcFailed)
      else some (Except.ok msg)

end SerialMessage

/-- C10 (amended): `deserialise` panics on the empty slice (usize
underflow while slicing off the CRC byte) and returns a `Result` without
panicking on every input of length ≥ 1; a length-1 input yields
`MissingRecipient` (its CRC-stripped prefix is empty), and a length-2
input yields `MissingCrc`. -/
theorem deserialise_totality :
    SerialMessage.deserialise [] = none ∧
    (∀ data : List Nat, 1 ≤ data.length →
      (SerialMessage.deserialise data).isSome) ∧
    (∀ data : List Nat, data.length = 1 →
      SerialMessage.deserialise data
        = some (Except.error DeserialisationError.MissingRecipient)) ∧
    (∀ data : List Nat, data.length = 2 →
      SerialMessage.deserialise data
        = some (Except.error DeserialisationError.MissingCrc)) := by
  refine ⟨rfl, ?_, ?_, ?_⟩
  · intro data h1
    by_cases h2 : data.length = 2
    · simp [SerialMessage.deserialise, h2]
    · simp only [SerialMessage.deserialise, if_neg h2,
        if_neg (by omega : ¬data.length = 0)]
      generalize SerialMessage.deserialise_unchecked data.dropLast = r
      rcases r with e | msg
      · rfl
      · dsimp only
        split <;> rfl
  · intro data h1
    match data, h1 with
    | [a], _ => rfl
  · intro data h2
    simp [SerialMessage.deserialise, h2]

/-- C10 witness: totality exercised at lengths 1 and 2. -/
theorem deserialise_totality_witness :
    (SerialMessage.deserialise [0x10]).isSome ∧
    SerialMessage.deserialise [0x10, 0x20]
      = some (Except.error DeserialisationError.MissingCrc) :=
  ⟨deserialise_totality.2.1 [0x10] (by decide),
   deserialise_totality.2.2.2 [0x10, 0x20] (by decide)⟩

/-- C10 counterexample: a length-1 input yields `MissingRecipient`, not
`MissingCommand` as the claim states (the CRC-stripped prefix handed to
`deserialise_unchecked` is empty, so the recipient is what is missing). -/
theorem deserialise_len1_counterexample :
    SerialMessage.deserialise [0x10]
        = some (Except.error DeserialisationError.MissingRecipient) ∧
    SerialMessage.deserialise [0x10]
        ≠ some (Except.error DeserialisationError.MissingCommand) := by
  decide

/-! ## Bus reply validation (src/serial/galaxy/bus.rs) -/

inductive ReadError
  | Timeout
  | NoData
  | InsufficientData
  | CrcCheckFailed
  | InvalidReplyRecipient (addr : Nat)
  | IoError
  deriving DecidableEq

def PANEL_ADDRESS : Nat := 0x11

/-- The reply-validation half of `Bus::send_receive_buffered`, applied to
the `bytes_read` bytes read from the serial port (the I/O, inter-packet
sleep and timeout plumbing around it are not modelled). -/
def send_receive_validate (reply : List Nat) : Except ReadError Nat :=
  let bytes_read := reply.length
  if bytes_read = 0 then Except.error ReadError.NoData
  else if bytes_read < 3 then Except.error ReadError.InsufficientData
  else if reply.getD 0 0 ≠ PANEL_ADDRESS then
    Except.error (ReadError.InvalidReplyRecipient (reply.getD 0 0))
  else if reply.getLastD 0 ≠ galaxy_crc reply.dropLast then
    Except.error ReadError.CrcCheckFailed
  else Except.ok (bytes_read - 1)

/-- C7: the reply checks run in order — no data, insufficient data, wrong
recipient, CRC mismatch — each returning its error at the first failing
check, and a fully valid reply returns `bytes_read − 1`, hiding the CRC
byte from the caller. -/
theorem send_receive_validate_spec (reply : List Nat) :
    (reply.length = 0 →
      send_receive_validate reply = Except.error ReadError.NoData) ∧
    (1 ≤ reply.length → reply.length < 3 →
      send_receive_validate reply = Except.error ReadError.InsufficientData) ∧
    (3 ≤ reply.length → reply.getD 0 0 ≠ 0x11 →
      send_receive_validate reply
        = Except.error (ReadError.InvalidReplyRecipient (reply.getD 0 0))) ∧
    (3 ≤ reply.length → reply.getD 0 0 = 0x11 →
      reply.getLastD 0 ≠ galaxy_crc reply.dropLast →
      send_receive_validate reply = Except.error ReadError.CrcCheckFailed) ∧
    (3 ≤ reply.length → reply.getD 0 0 = 0x11 →
      reply.getLastD 0 = galaxy_crc reply.dropLast →
      send_receive_validate reply = Except.ok (reply.length - 1)) := by
  refine ⟨?_, ?_, ?_, ?_, ?_⟩
  · intro h
    simp [send_receive_validate, h]
  · intro h1 h2
    simp only [send_receive_validate]
    rw [if_neg (by omega), if_pos h2]
  · intro h1 h2
    simp only [send_receive_validate, PANEL_ADDRESS]
    rw [if_neg (by omega), if_neg (by omega), if_pos h2]
  · intro h1 h2 h3
    simp only [send_receive_validate, PANEL_ADDRESS]
    rw [if_neg (by omega), if_neg (by omega), if_neg (by simpa using h2), if_pos h3]
  · intro h1 h2 h3
    simp only [send_receive_validate, PANEL_ADDRESS]
    rw [if_neg (by omega), if_neg (by omega), if_neg (by simpa using h2),
      if_neg (by simpa using h3)]

/-- C7 witness: the quiescent-ack wire reply `11 FE BA` validates and the
caller is told 2 bytes, never seeing the CRC byte. -/
theorem send_receive_validate_spec_witness :
    send_receive_validate [0x11, 0xFE, 0xBA] = Except.ok 2 :=
  (send_receive_validate_spec [0x11, 0xFE, 0xBA]).2.2.2.2
    (by decide) (by decide) (by decide)

/-! ## Serial manager (src/serial/manager.rs) -/

inductive DeliveryError
  | Timeout
  | CrcFailed
  | DeserialisationError (e : DeserialisationError)
  | BusError (e : ReadError)
  deriving DecidableEq

inductive DeviceStatus
  | Offline
  | OnlineOK
  | OnlineCorruptReplies
  | Unknown
  deriving DecidableEq

def LAST_MESSAGE_BAD_CHECKSUM_REPLY_COMMAND : Nat := 0xF2

def MAX_BACKOFF_CYCLES : Nat := 4

/-- The backoff table: per device id, `(current_backoff, max_backoff)`. -/
def BackoffMap := Nat → Option (Nat × Nat)

/-- `BackoffState::mark_device_backoff`: insert `(2, 0)` when absent,
otherwise bump `max_backoff` (clamped at 4) and set
`current_backoff = 1 + (1 << max_backoff)`. -/
def mark_device_backoff (m : BackoffMap) (id : Nat) : BackoffMap :=
  fun k =>
    if k = id then
      match m id with
      | none => some (2, 0)
      | some (_, mx) =>
        some (1 + 2 ^ (min (mx + 1) MAX_BACKOFF_CYCLES),
              min (mx + 1) MAX_BACKOFF_CYCLES)
    else m k

/-- `BackoffState::visit_device`: remove an expired entry (counter already
0) and report eligible; otherwise decrement, reporting `some` while the
counter remains positive. Returns the reported value and the new table. -/
def visit_device (m : BackoffMap) (id : Nat) : Option Nat × BackoffMap :=
  match m id with
  | none => (none, m)
  | some (cur, mx) =>
    if cur = 0 then (none, fun k => if k = id then none else m k)
    else
      (if cur - 1 = 0 then none else some (cur - 1),
       fun k => if k = id then some (cur - 1, mx) else m k)

/-- `n` consecutive `mark_device_backoff` calls for `id`. -/
def markN : Nat → BackoffMap → Nat → BackoffMap
  | 0, m, _ => m
  | n + 1, m, id => mark_device_backoff (markN n m id) id

/-- The result and state of the `(k+1)`-th consecutive `visit_device`. -/
def visitIter (m : BackoffMap) (id : Nat) : Nat → Option Nat × BackoffMap
  | 0 => visit_device m id
  | k + 1 => visitIter (visit_device m id).2 id k

theorem visitIter_succ (id : Nat) :
    ∀ (k : Nat) (m : BackoffMap),
      visitIter m id (k + 1) = visit_device (visitIter m id k).2 id := by
  intro k
  induction k with
  | zero => intro m; rfl
  | succ k ih =>
    intro m
    show visitIter (visit_device m id).2 id (k + 1) = _
    rw [ih]
    rfl

theorem markN_entry {m0 : BackoffMap} {id : Nat} (h0 : m0 id = none) :
    ∀ n, 1 ≤ n →
      markN n m0 id id = some (1 + 2 ^ (min (n - 1) 4), min (n - 1) 4) := by
  intro n
  induction n with
  | zero => omega
  | succ n ih =>
    intro _
    cases Nat.eq_zero_or_pos n with
    | inl hz =>
      subst hz
      show mark_device_backoff (markN 0 m0 id) id id = _
      simp [markN, mark_device_backoff, h0]
    | inr hpos =>
      show mark_device_backoff (markN n m0 id) id id = _
      rw [mark_device_backoff, if_pos rfl, ih hpos]
      have hmin : min (min (n - 1) 4 + 1) MAX_BACKOFF_CYCLES = min n 4 := by
        unfold MAX_BACKOFF_CYCLES; omega
      simp only [hmin, Nat.succ_sub_one]

theorem visit_device_present {m : BackoffMap} {id c mx : Nat}
    (hm : m id = some (c, mx)) (hc : c ≠ 0) :
    (visit_device m id).1 = (if c - 1 = 0 then none else some (c - 1)) ∧
    (visit_device m id).2 id = some (c - 1, mx) := by
  unfold visit_device
  rw [hm]
  dsimp only
  rw [if_neg hc]
  exact ⟨rfl, by simp⟩

theorem visit_device_expired {m : BackoffMap} {id mx : Nat}
    (hm : m id = some (0, mx)) :
    (visit_device m id).1 = none ∧ (visit_device m id).2 id = none := by
  unfold visit_device
  rw [hm]
  dsimp only
  rw [if_pos rfl]
  exact ⟨rfl, by simp⟩

theorem visitIter_countdown {id : Nat} :
    ∀ (k : Nat) (m : BackoffMap) (c mx : Nat), m id = some (c, mx) → k < c →
      (visitIter m id k).1
          = (if c - (k + 1) = 0 then none else some (c - (k + 1))) ∧
      (visitIter m id k).2 id = some (c - (k + 1), mx) := by
  intro k
  induction k with
  | zero =>
    intro m c mx hm hk
    have h := visit_device_present hm (by omega)
    refine ⟨?_, ?_⟩
    · show (visit_device m id).1 = _
      rw [h.1]
    · show (visit_device m id).2 id = _
      rw [h.2]
  | succ k ih =>
    intro m c mx hm hk
    have hstate := (visit_device_present hm (by omega)).2
    have := ih (visit_device m id).2 (c - 1) mx hstate (by omega)
    have harith : c - 1 - (k + 1) = c - (k + 1 + 1) := by omega
    constructor
    · show (visitIter (visit_device m id).2 id k).1 = _
      rw [this.1, harith]
    · show (visitIter (visit_device m id).2 id k).2 id = _
      rw [this.2, harith]

/-- C6: after `n` consecutive offline markings of a device absent from the
backoff table, `visit_device` reports the device in backoff for exactly
`min(1 + (1 << min(n−1, 4)), 17) − 1` consecutive cycles and then reports
it eligible; the visit after that removes the entry, and a subsequent
marking re-inserts the initial `(2, 0)` entry — one skip cycle, restarting
the 1, 2, 4, 8, 16, 16, … progression. -/
theorem backoff_progression (m0 : BackoffMap) (id : Nat) (h0 : m0 id = none)
    (n : Nat) (hn : 1 ≤ n) (c : Nat)
    (hc : c = min (1 + 2 ^ (min (n - 1) 4)) 17) :
    (∀ k, k < c - 1 → (visitIter (markN n m0 id) id k).1.isSome) ∧
    (visitIter (markN n m0 id) id (c - 1)).1 = none ∧
    (visitIter (markN n m0 id) id c).1 = none ∧
    (visitIter (markN n m0 id) id c).2 id = none ∧
    mark_device_backoff (visitIter (markN n m0 id) id c).2 id id
      = some (2, 0) := by
  have hpow : 2 ^ (min (n - 1) 4) ≤ 16 := by
    calc 2 ^ (min (n - 1) 4) ≤ 2 ^ 4 :=
      Nat.pow_le_pow_right (by norm_num) (by omega)
    _ = 16 := by norm_num
  have hceq : c = 1 + 2 ^ (min (n - 1) 4) := by omega
  have hc2 : 2 ≤ c := by
    have : 1 ≤ 2 ^ (min (n - 1) 4) := Nat.one_le_two_pow
    omega
  have hentry := markN_entry h0 n hn
  rw [← hceq] at hentry
  refine ⟨?_, ?_, ?_, ?_, ?_⟩
  · intro k hk
    have := (visitIter_countdown k (markN n m0 id) c _ hentry (by omega)).1
    rw [this, if_neg (by omega)]
    rfl
  · have := (visitIter_countdown (c - 1) (markN n m0 id) c _ hentry (by omega)).1
    rw [this, if_pos (by omega)]
  · have hprev : (visitIter (markN n m0 id) id (c - 1)).2 id = some (0, min (n - 1) 4) := by
      have := (visitIter_countdown (c - 1) (markN n m0 id) c _ hentry (by omega)).2
      rw [this]
      congr 2
      omega
    have hsucc : visitIter (markN n m0 id) id c
        = visit_device (visitIter (markN n m0 id) id (c - 1)).2 id := by
      have harith : c = (c - 1) + 1 := by omega
      rw [harith, visitIter_succ]
      rfl
    rw [hsucc]
    exact (visit_device_expired hprev).1
  · have hprev : (visitIter (markN n m0 id) id (c - 1)).2 id = some (0, min (n - 1) 4) := by
      have := (visitIter_countdown (c - 1) (markN n m0 id) c _ hentry (by omega)).2
      rw [this]
      congr 2
      omega
    have hsucc : visitIter (markN n m0 id) id c
        = visit_device (visitIter (markN n m0 id) id (c - 1)).2 id := by
      have harith : c = (c - 1) + 1 := by omega
      rw [harith, visitIter_succ]
      rfl
    rw [hsucc]
    exact (visit_device_expired hprev).2
  · have hprev : (visitIter (markN n m0 id) id (c - 1)).2 id = some (0, min (n - 1) 4) := by
      have := (visitIter_countdown (c - 1) (markN n m0 id) c _ hentry (by omega)).2
      rw [this]
      congr 2
      omega
    have hsucc : visitIter (markN n m0 id) id c
        = visit_device (visitIter (markN n m0 id) id (c - 1)).2 id := by
      have harith : c = (c - 1) + 1 := by omega
      rw [harith, visitIter_succ]
      rfl
    have hremoved : (visitIter (markN n m0 id) id c).2 id = none := by
      rw [hsucc]
      exact (visit_device_expired hprev).2
    rw [mark_device_backoff, if_pos rfl, hremoved]

/-- C6 witness: two consecutive markings give 2 skip cycles then removal
and a fresh `(2, 0)` entry. -/
theorem backoff_progression_witness :
    (visitIter (markN 2 (fun _ => none) 0) 0 0).1.isSome ∧
    (visitIter (markN 2 (fun _ => none) 0) 0 2).1 = none ∧
    mark_device_backoff (visitIter (markN 2 (fun _ => none) 0) 0 3).2 0 0
      = some (2, 0) := by
  have h := backoff_progression (fun _ => none) 0 rfl 2 (by norm_num) 3 (by norm_num)
  exact ⟨h.1 0 (by norm_num), h.2.1, h.2.2.2.2⟩

/-! ### poll_device retry loop -/

/-- Whether `poll_device` flags the current attempt for retry: any error,
or a parsed reply whose command is the bad-checksum reply 0xF2. -/
def shouldRetry (r : Except DeliveryError SerialMessage) : Bool :=
  match r with
  | Except.ok reply => reply.command == LAST_MESSAGE_BAD_CHECKSUM_REPLY_COMMAND
  | Except.error _ => true

def isErrResult (r : Except DeliveryError SerialMessage) : Bool :=
  match r with
  | Except.ok _ => false
  | Except.error _ => true

/-- The retry loop of `SerialManager::poll_device`:
`while retries_left > 0 && reply_status.is_err() { … }`, where attempt `i`
produces `f i` (the mapped bus outcome followed by unchecked
deserialisation). Returns the delivered result and the number of attempts
performed. -/
def pollLoop (f : Nat → Except DeliveryError SerialMessage) :
    Nat → Nat → Except DeliveryError SerialMessage →
    Except DeliveryError SerialMessage × Nat
  | i, 0, reply => (reply, i)
  | i, retries + 1, reply =>
    if isErrResult reply then
      let newReply := f i
      if shouldRetry newReply then pollLoop f (i + 1) retries newReply
      else (newReply, i + 1)
    else (reply, i)

/-- `poll_device`'s attempt phase: 3 retries, starting from the seed
`Err(Timeout)` status. -/
def poll_device_attempts (f : Nat → Except DeliveryError SerialMessage) :
    Except DeliveryError SerialMessage × Nat :=
  pollLoop f 0 3 (Except.error DeliveryError.Timeout)

/-- C1 (code bug): when the first attempt parses a reply with command 0xF2
the loop flags a retry, decrements the budget and sleeps — but the `while`
condition `retries_left > 0 && reply_status.is_err()` then sees an `Ok`
status and exits, so the 0xF2 reply is delivered after a single attempt.
Genuine errors, by contrast, are retried up to the full 3 attempts. -/
theorem poll_device_bad_checksum_single_attempt :
    poll_device_attempts (fun _ => Except.ok ⟨0x11, 0xF2, none⟩)
        = (Except.ok ⟨0x11, 0xF2, none⟩, 1) ∧
    poll_device_attempts (fun _ => Except.error DeliveryError.Timeout)
        = (Except.error DeliveryError.Timeout, 3) := by
  constructor <;> rfl

/-! ### run-loop health classification -/

/-- The `(failures, status)` update in `SerialManager::run` after each
`poll_device` outcome. `failures` is a `u16`, so the increment wraps. -/
def healthStep (failures : Nat) (result : Except DeliveryError Unit) :
    Nat × DeviceStatus :=
  match result with
  | Except.ok _ => (0, DeviceStatus.OnlineOK)
  | Except.error e =>
    ((failures + 1) % 65536,
      match e with
      | DeliveryError.Timeout => DeviceStatus.Offline
      | DeliveryError.BusError _ => DeviceStatus.Offline
      | DeliveryError.CrcFailed => DeviceStatus.OnlineCorruptReplies
      | DeliveryError.DeserialisationError _ => DeviceStatus.OnlineCorruptReplies)

/-- A device's `(failures, status)` after a sequence of poll outcomes,
starting from `DeviceState::new` (`failures = 0`, status `Unknown`). -/
def healthRun (outcomes : List (Except DeliveryError Unit)) : Nat × DeviceStatus :=
  outcomes.foldl (fun st r => healthStep st.1 r) (0, DeviceStatus.Unknown)

def isErrOutcome : Except DeliveryError Unit → Bool := fun r =>
  match r with
  | Except.ok _ => false
  | Except.error _ => true

/-- Number of consecutive error outcomes at the end of the sequence. -/
def trailingErrors (os : List (Except DeliveryError Unit)) : Nat :=
  (os.reverse.takeWhile isErrOutcome).length

theorem trailingErrors_append_ok (os : List (Except DeliveryError Unit)) :
    trailingErrors (os ++ [Except.ok ()]) = 0 := by
  unfold trailingErrors
  rw [List.reverse_append]
  rfl

theorem trailingErrors_append_error (os : List (Except DeliveryError Unit))
    (e : DeliveryError) :
    trailingErrors (os ++ [Except.error e]) = trailingErrors os + 1 := by
  unfold trailingErrors
  rw [List.reverse_append]
  rfl

theorem healthRun_append (os : List (Except DeliveryError Unit))
    (r : Except DeliveryError Unit) :
    healthRun (os ++ [r]) = healthStep (healthRun os).1 r := by
  unfold healthRun
  rw [List.foldl_append]
  rfl

theorem healthRun_failures (os : List (Except DeliveryError Unit)) :
    (healthRun os).1 = trailingErrors os % 65536 := by
  induction os using List.reverseRecOn with
  | nil => rfl
  | append_singleton os r ih =>
    rw [healthRun_append]
    cases r with
    | ok u => rw [trailingErrors_append_ok]; rfl
    | error e =>
      rw [trailingErrors_append_error]
      show ((healthRun os).1 + 1) % 65536 = _
      rw [ih]
      omega

/-- C8 (amended): after each outcome the status matches the table —
`OnlineOK` on `Ok`, `Offline` on `Timeout`/`BusError`,
`OnlineCorruptReplies` on `CrcFailed`/`DeserialisationError`, with
`failures` incremented on errors and reset on success — and, provided
fewer than 2^16 consecutive failures have accumulated (the `u16` counter
wraps), `failures = 0` holds iff the last outcome was `Ok`; `failures = 0`
whenever the status is `OnlineOK`, unconditionally. -/
theorem healthRun_spec (os : List (Except DeliveryError Unit))
    (r : Except DeliveryError Unit)
    (hlt : trailingErrors (os ++ [r]) < 65536) :
    (r = Except.ok () → healthRun (os ++ [r]) = (0, DeviceStatus.OnlineOK)) ∧
    (∀ e, r = Except.error e →
      healthRun (os ++ [r])
        = ((healthRun os).1 + 1,
           match e with
           | DeliveryError.Timeout => DeviceStatus.Offline
           | DeliveryError.BusError _ => DeviceStatus.Offline
           | DeliveryError.CrcFailed => DeviceStatus.OnlineCorruptReplies
           | DeliveryError.DeserialisationError _ =>
             DeviceStatus.OnlineCorruptReplies)) ∧
    ((healthRun (os ++ [r])).1 = 0 ↔ r = Except.ok ()) ∧
    ((healthRun (os ++ [r])).2 = DeviceStatus.OnlineOK →
      (healthRun (os ++ [r])).1 = 0) := by
  refine ⟨?_, ?_, ?_, ?_⟩
  · rintro rfl
    rw [healthRun_append]
    rfl
  · rintro e rfl
    rw [healthRun_append]
    rw [trailingErrors_append_error] at hlt
    have hf : (healthRun os).1 < 65535 := by
      rw [healthRun_failures os]
      omega
    have hmod : ((healthRun os).1 + 1) % 65536 = (healthRun os).1 + 1 := by omega
    simp only [healthStep, hmod]
  · rw [healthRun_failures]
    cases r with
    | ok u =>
      rw [trailingErrors_append_ok]
      simp
    | error e =>
      rw [trailingErrors_append_error] at hlt ⊢
      constructor
      · intro h
        omega
      · intro h
        cases h
  · intro h
    cases r with
    | ok u => rw [healthRun_append]; rfl
    | error e =>
      exfalso
      rw [healthRun_append] at h
      unfold healthStep at h
      cases e <;> simp at h

/-- C8 witness: a success outcome after one failure resets the counter. -/
theorem healthRun_spec_witness :
    healthRun ([Except.error DeliveryError.Timeout] ++ [Except.ok ()])
      = (0, DeviceStatus.OnlineOK) :=
  (healthRun_spec [Except.error DeliveryError.Timeout] (Except.ok ())
    (by decide)).1 rfl

theorem healthRun_replicate_error (e : DeliveryError) :
    ∀ (n : Nat) (st : Nat × DeviceStatus),
      (List.replicate n (Except.error e)).foldl (fun st r => healthStep st.1 r) st
        = if n = 0 then st else ((st.1 + n) % 65536,
            match e with
            | DeliveryError.Timeout => DeviceStatus.Offline
            | DeliveryError.BusError _ => DeviceStatus.Offline
            | DeliveryError.CrcFailed => DeviceStatus.OnlineCorruptReplies
            | DeliveryError.DeserialisationError _ =>
              DeviceStatus.OnlineCorruptReplies) := by
  intro n
  induction n with
  | zero => intro st; rfl
  | succ n ih =>
    intro st
    rw [List.replicate_succ, List.foldl_cons, ih]
    cases n with
    | zero =>
      simp only [if_pos rfl, if_neg (Nat.succ_ne_zero 0)]
      rfl
    | succ m =>
      rw [if_neg (Nat.succ_ne_zero m), if_neg (Nat.succ_ne_zero (m + 1))]
      show (((st.1 + 1) % 65536 + (m + 1)) % 65536, _) = _
      congr 1
      omega

/-- C8 counterexample: after 65536 consecutive `Timeout` outcomes the
`u16` failure counter has wrapped to 0 although the last outcome was an
error, refuting `failures == 0 ⇔ last outcome Ok` in full generality. -/
theorem healthRun_wrap_counterexample :
    (healthRun (List.replicate 65536 (Except.error DeliveryError.Timeout))).1 = 0 ∧
    (List.replicate 65536
        (Except.error DeliveryError.Timeout : Except DeliveryError Unit)).getLast?
      = some (Except.error DeliveryError.Timeout) := by
  constructor
  · unfold healthRun
    rw [healthRun_replicate_error DeliveryError.Timeout 65536 (0, DeviceStatus.Unknown)]
    rw [if_neg (by norm_num)]
    rfl
  · rw [List.replicate_succ', List.getLast?_concat]

/-! ## Keypad display (src/serial/devices/keypad.rs, mod display) -/

inductive CursorStyle
  | None
  | Block
  | Underline
  deriving DecidableEq

/-- `ScreenOpCodes::cursor_style_op_code`. -/
def cursor_style_op_code : CursorStyle → Nat
  | CursorStyle.None => 0x07
  | CursorStyle.Block => 0x06
  | CursorStyle.Underline => 0x10

/-- `pad_string_iterator(16, s)`: the line padded with spaces to 16
characters (and truncated beyond 16). Characters are code points; casting
to the wire is `% 256`. -/
def pad16 (l : List Nat) : List Nat := (l ++ List.replicate 16 0x20).take 16

structure KeypadDisplayState where
  line0 : List Nat
  line1 : List Nat
  cursor_position : Option Nat
  cursor_style : CursorStyle
  deriving DecidableEq

namespace KeypadDisplayState

/-- `full_update`: display reset, hidden cursor, each non-empty line
written from its line start, then the cursor style when not `None`.
Returns the byte sequence and the tracked cursor position. -/
def full_update (s : KeypadDisplayState) : List Nat × Option Nat :=
  let data := [0x17, 0x07]
    ++ (if s.line0.length > 0 then 0x01 :: s.line0.map (· % 256) else [])
    ++ (if s.line1.length > 0 then 0x02 :: s.line1.map (· % 256) else [])
  let cursor_position :=
    if s.line1.length > 0 then some (0x40 + s.line1.length + 1)
    else if s.line0.length > 0 then some (s.line0.length + 1)
    else none
  (data ++ (if s.cursor_style ≠ CursorStyle.None
            then [cursor_style_op_code s.cursor_style] else []),
   cursor_position)

/-- One cell of the partial-update walk (`for (j, (a, b))` body): `a` is
the from-character, `b` the to-character, at line `i`, column `j`. The
running state is the emitted bytes, the tracked cursor position, and the
one-character look-back `skipped_char`. -/
def partialStepCell (i j a b : Nat) (data : List Nat) (cur : Option Nat)
    (skipped : Option Nat) : List Nat × Option Nat × Option Nat :=
  let offset := i * 0x40 + j
  if a ≠ b then
    let cursor_diff := match cur with
      | none => 18446744073709551615
      | some p => offset - p
    let data :=
      if cursor_diff = 1 ∧ skipped.isSome then data ++ [skipped.getD 0 % 256]
      else if 2 ≤ cursor_diff then
        if j = 0 then data ++ [if i = 0 then 0x01 else 0x02]
        else data ++ [0x03, offset]
      else data
    (data ++ [b % 256], some (offset + 1), none)
  else (data, cur, some b)

/-- The inner cell loop of `partial_update` over one line's zipped
from/to characters, threading column index `j`. -/
def partialWalkLine (i : Nat) :
    Nat → List (Nat × Nat) → List Nat → Option Nat → Option Nat →
    List Nat × Option Nat
  | _, [], data, cur, _ => (data, cur)
  | j, (a, b) :: rest, data, cur, skipped =>
    let s := partialStepCell i j a b data cur skipped
    partialWalkLine i (j + 1) rest s.1 s.2.1 s.2.2

/-- `partial_update(self, from)`: walk both 16-cell lines (the look-back
is reset at each line start), then append the cursor-style opcode when
the style changed. -/
def partial_update (s from_ : KeypadDisplayState) : List Nat × Option Nat :=
  let p0 := partialWalkLine 0 0 ((pad16 from_.line0).zip (pad16 s.line0)) [] none none
  let p1 := partialWalkLine 1 0 ((pad16 from_.line1).zip (pad16 s.line1)) p0.1 p0.2 none
  (p1.1 ++ (if from_.cursor_style ≠ s.cursor_style
            then [cursor_style_op_code s.cursor_style] else []),
   p1.2)

/-- The scoring walk of `update_score`: counts differing characters and
maximal runs of consecutive differing cells. -/
def scoreWalk : List (Nat × Nat) → Nat × Nat × Bool → Nat × Nat × Bool
  | [], st => st
  | (a, b) :: rest, (blocks, chars, inb) =>
    if a ≠ b then scoreWalk rest (if inb then blocks else blocks + 1, chars + 1, true)
    else scoreWalk rest (blocks, chars, false)

/-- `update_score`: `2 × discrete_blocks + chars_diff`, plus 1 when the
cursor style changed. -/
def update_score (s from_ : KeypadDisplayState) : Nat :=
  let pairs := (pad16 from_.line0 ++ pad16 from_.line1).zip
    (pad16 s.line0 ++ pad16 s.line1)
  let r := scoreWalk pairs (0, 0, false)
  2 * r.1 + r.2.1 + (if from_.cursor_style ≠ s.cursor_style then 1 else 0)

def MAX_PARTIAL_UPDATE_SCORE : Nat := 40

/-- `strategic_update`: pick partial iff its score beats the full-update
cost and the firmware ceiling, then seek the desired cursor position when
the chosen strategy left the cursor elsewhere (`cur_pos as u8`). -/
def strategic_update (s from_ : KeypadDisplayState) : List Nat :=
  let us := update_score s from_
  let full_score := 3 + s.line0.length + s.line1.length
  let r :=
    if us < full_score ∧ us < MAX_PARTIAL_UPDATE_SCORE then s.partial_update from_
    else s.full_update
  r.1 ++ (match s.cursor_position with
    | some offset =>
      if (match r.2 with
          | none => true
          | some cur_pos => cur_pos % 256 ≠ offset)
      then [0x03, offset] else []
    | none => [])

end KeypadDisplayState

/-! ## Keypad device (src/serial/devices/keypad.rs) -/

inductive Backlight
  | Off
  | On
  deriving DecidableEq

def Backlight.toByte : Backlight → Nat
  | Backlight.Off => 0x00
  | Backlight.On => 0x01

inductive Beeper
  | Off
  | On
  | Intermittent (on_time off_time : Nat)
  deriving DecidableEq

def Beeper.toBytes : Beeper → List Nat
  | Beeper.Off => [0x00, 0x00, 0x00]
  | Beeper.On => [0x01, 0x00, 0x00]
  | Beeper.Intermittent a b => [0x03, a, b]

inductive KeyClicks
  | Off
  | Quiet
  | Normal
  deriving DecidableEq

def KeyClicks.toByte : KeyClicks → Nat
  | KeyClicks.Off => 0x03
  | KeyClicks.Quiet => 0x05
  | KeyClicks.Normal => 0x01

structure State where
  backlight : Backlight
  beeper : Beeper
  blink : Bool
  key_clicks : KeyClicks
  screen : KeypadDisplayState
  deriving DecidableEq

/-- `State::default`: everything off, boot screen. -/
def State.default : State :=
  { backlight := Backlight.Off
    beeper := Beeper.Off
    blink := false
    key_clicks := KeyClicks.Off
    screen :=
      { line0 := [32, 32, 32, 32, 42, 42, 42, 42, 42, 42, 42, 42, 32, 32, 32, 32]
        line1 := [80, 97, 110, 101, 108, 32, 98, 111, 111, 116, 105, 110, 103, 32, 117, 112]
        cursor_position := none
        cursor_style := CursorStyle.None } }

/-- `UpdateFlag::<B>::get_toggle`: flip the stored bit, then return `0x0`
if it is now true, else `B`. Returns the value and the new bit. -/
def get_toggle (B : Nat) (b : Bool) : Nat × Bool :=
  ((if !b then 0x0 else B), !b)

structure KeypadUpdates where
  send_key_ack : Bool
  send_backlight : Bool
  send_beeper : Bool
  send_key_clicks : Bool
  send_screen : Bool
  screen_update_flag : Bool
  key_update_flag : Bool
  deriving DecidableEq

/-- `KeypadUpdates::default`: no forced sends, both toggle flags start
`true`. -/
def KeypadUpdates.default : KeypadUpdates :=
  { send_key_ack := false
    send_backlight := false
    send_beeper := false
    send_key_clicks := false
    send_screen := false
    screen_update_flag := true
    key_update_flag := true }

structure SerialKeypad where
  state : State
  last_state : Option State
  tamper : Bool
  updates : KeypadUpdates
  deriving DecidableEq

def SerialKeypad.default : SerialKeypad :=
  { state := State.default
    last_state := none
    tamper := false
    updates := KeypadUpdates.default }

inductive Command
  | Initialise
  | Ping
  | Screen
  | ButtonAck
  | Beeper
  | Backlight
  | KeyClicks
  deriving DecidableEq

def Command.toByte : Command → Nat
  | Command.Initialise => 0x00
  | Command.Ping => 0x06
  | Command.Screen => 0x07
  | Command.KeyClicks => 0x19
  | Command.ButtonAck => 0x0B
  | Command.Beeper => 0x0C
  | Command.Backlight => 0x0D

inductive ReplyCommand
  | Initialised
  | Ack
  | AckWithKey
  | BadChecksum
  deriving DecidableEq

/-- `TryFrom<u8> for ReplyCommand`; `none` is the error case. -/
def ReplyCommand.tryFromByte (v : Nat) : Option ReplyCommand :=
  if v = 0xF2 then some ReplyCommand.BadChecksum
  else if v = 0xF4 then some ReplyCommand.AckWithKey
  else if v = 0xFE then some ReplyCommand.Ack
  else if v = 0xFF then some ReplyCommand.Initialised
  else none

/-- `KEYS = "0123456789BAEX*#"` as character codes. -/
def KEYS : List Nat := [48, 49, 50, 51, 52, 53, 54, 55, 56, 57, 66, 65, 69, 88, 42, 35]

/-- `key_to_char(idx)`; the only caller passes `b & 0xF < 16`, so the
out-of-bounds panic is unreachable and a default suffices. -/
def key_to_char (idx : Nat) : Nat := KEYS.getD idx 0

/-- `SerialKeypad::next_command` (the online branch of `next_message`):
strict priority backlight, beeper, key clicks, screen, key ack, ping; the
selected branch clears its force flag and optimistically copies the field
into `last_state`. In the screen branch the display-flags byte is
`0x01 | screen_toggle | (send_key_ack ? 0x10 | key_toggle : 0) |
(blink ? 0x08 : 0)`; the four contributions occupy disjoint bits
(0x01; 0x80; 0x10+0x02; 0x08), so the bitwise or is written as `+`. -/
def next_command (k : SerialKeypad) (last : State) :
    (Command × Option (List Nat)) × SerialKeypad :=
  let cur := k.state
  let u := k.updates
  if u.send_backlight ∨ cur.backlight ≠ last.backlight then
    ((Command.Backlight, some [cur.backlight.toByte]),
     { k with
        updates := { u with send_backlight := false }
        last_state := some { last with backlight := cur.backlight } })
  else if u.send_beeper ∨ cur.beeper ≠ last.beeper then
    ((Command.Beeper, some cur.beeper.toBytes),
     { k with
        updates := { u with send_beeper := false }
        last_state := some { last with beeper := cur.beeper } })
  else if u.send_key_clicks ∨ cur.key_clicks ≠ last.key_clicks then
    ((Command.KeyClicks, some [cur.key_clicks.toByte]),
     { k with
        updates := { u with send_key_clicks := false }
        last_state := some { last with key_clicks := cur.key_clicks } })
  else if u.send_screen ∨ cur.screen ≠ last.screen ∨ cur.blink ≠ last.blink then
    let st := get_toggle 0x80 u.screen_update_flag
    let ack :=
      if u.send_key_ack then
        let kt := get_toggle 0x02 u.key_update_flag
        (0x10 + kt.1,
         { u with
            send_key_ack := false
            screen_update_flag := st.2
            key_update_flag := kt.2 })
      else (0, { u with screen_update_flag := st.2 })
    let display_flags := 0x01 + st.1 + ack.1 + (if cur.blink then 0x08 else 0)
    let body :=
      if u.send_screen then (cur.screen.full_update).1
      else cur.screen.strategic_update last.screen
    ((Command.Screen, some (display_flags :: body)),
     { k with
        updates := { ack.2 with send_screen := false }
        last_state := some { last with screen := cur.screen } })
  else if u.send_key_ack then
    let kt := get_toggle 0x02 u.key_update_flag
    ((Command.ButtonAck, some [kt.1]),
     { k with
        updates := { u with
          send_key_ack := false
          key_update_flag := kt.2 } })
  else ((Command.Ping, none), k)

/-- `SerialDevice::next_message for SerialKeypad`: `Initialise [0x0E]`
while offline, else `next_command`. Returns the emitted `(command byte,
payload)` and the successor keypad state. -/
def next_message (k : SerialKeypad) : (Nat × Option (List Nat)) × SerialKeypad :=
  match k.last_state with
  | none => ((0x00, some [0x0E]), k)
  | some last =>
    let r := next_command k last
    ((r.1.1.toByte, r.1.2), r.2)

/-- `SerialDevice::receive_update for SerialKeypad`. Returns the successor
state and the published key-press events (character codes). -/
def receive_update (k : SerialKeypad) (msg : Except DeliveryError SerialMessage) :
    SerialKeypad × List Nat :=
  match msg with
  | Except.error _ => ({ k with last_state := none }, [])
  | Except.ok reply =>
    match ReplyCommand.tryFromByte reply.command with
    | some ReplyCommand.Initialised =>
      if k.last_state.isSome then (k, [])
      else
        match reply.additional_data with
        | some data =>
          if data.length = 3 then
            if (data.getD 0 0, data.getD 1 0, data.getD 2 0) = (0x08, 0x00, 0x64) then
              ({ k with
                  last_state := some k.state
                  tamper := false
                  updates := { k.updates with
                    send_backlight := true
                    send_beeper := true
                    send_key_clicks := true
                    send_screen := true } }, [])
            else (k, [])
          else (k, [])
        | none => (k, [])
    | some ReplyCommand.Ack => ({ k with tamper := false }, [])
    | some ReplyCommand.AckWithKey =>
      match reply.additional_data with
      | some data =>
        if data.length = 1 then
          let b := data.getD 0 0
          if b = 0x7F then ({ k with tamper := true }, [])
          else
            let k1 := { k with tamper := b &&& 0x40 == 0x40 }
            if k.updates.send_key_ack then (k1, [])
            else
              ({ k1 with updates := { k1.updates with send_key_ack := true } },
               [key_to_char (b &&& 0xF)])
        else (k, [])
      | none => (k, [])
    | some ReplyCommand.BadChecksum => ({ k with last_state := none }, [])
    | none => (k, [])

/-- C2 (amended): with `last_state = None`, a successful `Initialised`
reply carrying exactly `[0x08, 0x00, 0x64]` snapshots the desired state
into `last_state`, clears tamper, and sets the four equipment force-send
flags (`send_backlight`, `send_beeper`, `send_key_clicks`, `send_screen`)
to true; `send_key_ack` is left unchanged (the record update below does
not touch it). -/
theorem receive_update_initialised (k : SerialKeypad) (addr : Nat)
    (h : k.last_state = none) :
    (receive_update k (Except.ok ⟨addr, 0xFF, some [0x08, 0x00, 0x64]⟩)).1
      = { k with
          last_state := some k.state
          tamper := false
          updates := { k.updates with
            send_backlight := true
            send_beeper := true
            send_key_clicks := true
            send_screen := true } } := by
  unfold receive_update
  simp [ReplyCommand.tryFromByte, h]

/-- C2 witness: the freshly constructed keypad. -/
theorem receive_update_initialised_witness :
    (receive_update SerialKeypad.default
        (Except.ok ⟨0x10, 0xFF, some [0x08, 0x00, 0x64]⟩)).1
      = { SerialKeypad.default with
          last_state := some SerialKeypad.default.state
          tamper := false
          updates := { SerialKeypad.default.updates with
            send_backlight := true
            send_beeper := true
            send_key_clicks := true
            send_screen := true } } :=
  receive_update_initialised SerialKeypad.default 0x10 rfl

/-- C2 counterexample: on the freshly constructed keypad (where
`last_state` is `None` and `send_key_ack` is false), the successful
initialisation reply leaves `send_key_ack` false — the code sets only the
four equipment force-send flags, not all five as the claim states. -/
theorem receive_update_initialised_counterexample :
    ((receive_update SerialKeypad.default
        (Except.ok ⟨0x10, 0xFF, some [0x08, 0x00, 0x64]⟩)).1).updates.send_key_ack
      = false := by
  decide

/-! ### Execution traces of a keypad (C3) -/

/-- The operations the two tasks can perform on a keypad: a Manager poll
(`next_message`), delivery of a poll result, and a UI-task
`mutate_state`. -/
inductive KeypadOp
  | next : KeypadOp
  | receive (msg : Except DeliveryError SerialMessage) : KeypadOp
  | mutate (f : State → State) : KeypadOp

def stepOp (k : SerialKeypad) : KeypadOp → SerialKeypad × Option (Nat × Option (List Nat))
  | KeypadOp.next => ((next_message k).2, some (next_message k).1)
  | KeypadOp.receive msg => ((receive_update k msg).1, none)
  | KeypadOp.mutate f => ({ k with state := f k.state }, none)

/-- Run a trace, collecting the emitted messages in order. -/
def runTrace : SerialKeypad → List KeypadOp → SerialKeypad × List (Nat × Option (List Nat))
  | k, [] => (k, [])
  | k, op :: rest =>
    let s := stepOp k op
    let r := runTrace s.1 rest
    (r.1, (match s.2 with | some m => [m] | none => []) ++ r.2)

def isScreenMsg (m : Nat × Option (List Nat)) : Bool := m.1 == 0x07

/-- A message that carries a key acknowledgement: a `ButtonAck`, or a
screen command whose display-flags byte has bit 4 (0x10) set. -/
def isKeyAckMsg (m : Nat × Option (List Nat)) : Bool :=
  m.1 == 0x0B ||
  (m.1 == 0x07 && (match m.2 with
    | some (flags :: _) => flags.testBit 4
    | _ => false))

/-- The screen-freshness bit (0x80) carried by a screen command. -/
def screenFlagBit (m : Nat × Option (List Nat)) : Bool :=
  match m.2 with
  | some (flags :: _) => flags.testBit 7
  | _ => false

/-- The key-freshness value (0x00 or 0x02) carried by an
acknowledgement: the payload byte of a `ButtonAck`, or bit 1 of a screen
command's display-flags byte. -/
def keyAckValue (m : Nat × Option (List Nat)) : Nat :=
  if m.1 = 0x0B then
    match m.2 with
    | some (v :: _) => v
    | _ => 0
  else
    match m.2 with
    | some (flags :: _) => flags &&& 0x02
    | _ => 0

theorem receive_update_toggles (k : SerialKeypad)
    (msg : Except DeliveryError SerialMessage) :
    ((receive_update k msg).1).updates.screen_update_flag
        = k.updates.screen_update_flag ∧
    ((receive_update k msg).1).updates.key_update_flag
        = k.updates.key_update_flag := by
  unfold receive_update
  cases msg with
  | error e => exact ⟨rfl, rfl⟩
  | ok reply =>
    cases h : ReplyCommand.tryFromByte reply.command with
    | none =>
      simp only [h]
      refine ⟨?_, ?_⟩ <;> first | rfl | trivial
    | some c =>
      simp only [h]
      cases c
      all_goals (repeat' split) <;> refine ⟨?_, ?_⟩ <;> first | rfl | trivial

theorem next_message_toggle (k : SerialKeypad) :
    ((isScreenMsg (next_message k).1 = true →
        screenFlagBit (next_message k).1 = k.updates.screen_update_flag ∧
        ((next_message k).2).updates.screen_update_flag
          = !k.updates.screen_update_flag) ∧
     (isScreenMsg (next_message k).1 = false →
        ((next_message k).2).updates.screen_update_flag
          = k.updates.screen_update_flag)) ∧
    ((isKeyAckMsg (next_message k).1 = true →
        keyAckValue (next_message k).1
          = (if k.updates.key_update_flag then 2 else 0) ∧
        ((next_message k).2).updates.key_update_flag
          = !k.updates.key_update_flag) ∧
     (isKeyAckMsg (next_message k).1 = false →
        ((next_message k).2).updates.key_update_flag
          = k.updates.key_update_flag)) := by
  cases hls : k.last_state with
  | none =>
    unfold next_message
    rw [hls]
    refine ⟨⟨fun hS => ?_, fun hS => ?_⟩, ⟨fun hK => ?_, fun hK => ?_⟩⟩ <;>
      first
        | (refine absurd hS ?_; (simp [isScreenMsg, isKeyAckMsg, screenFlagBit, keyAckValue, Command.toByte, get_toggle] <;> decide); done)
        | (refine absurd hK ?_; (simp [isScreenMsg, isKeyAckMsg, screenFlagBit, keyAckValue, Command.toByte, get_toggle] <;> decide); done)
        | ((refine ⟨?_, ?_⟩ <;> (simp [isScreenMsg, isKeyAckMsg, screenFlagBit, keyAckValue, Command.toByte, get_toggle] <;> decide)); done)
        | rfl
        | ((simp [isScreenMsg, isKeyAckMsg, screenFlagBit, keyAckValue, Command.toByte, get_toggle] <;> decide); done)
  | some last =>
    unfold next_message
    rw [hls]
    dsimp only
    unfold next_command
    by_cases h1 : (k.updates.send_backlight ∨ k.state.backlight ≠ last.backlight)
    · rw [if_pos h1]
      refine ⟨⟨fun hS => ?_, fun hS => ?_⟩, ⟨fun hK => ?_, fun hK => ?_⟩⟩ <;>
        first
          | (refine absurd hS ?_; (simp [isScreenMsg, isKeyAckMsg, screenFlagBit, keyAckValue, Command.toByte, get_toggle] <;> decide); done)
          | (refine absurd hK ?_; (simp [isScreenMsg, isKeyAckMsg, screenFlagBit, keyAckValue, Command.toByte, get_toggle] <;> decide); done)
          | ((refine ⟨?_, ?_⟩ <;> (simp [isScreenMsg, isKeyAckMsg, screenFlagBit, keyAckValue, Command.toByte, get_toggle] <;> decide)); done)
          | rfl
          | ((simp [isScreenMsg, isKeyAckMsg, screenFlagBit, keyAckValue, Command.toByte, get_toggle] <;> decide); done)
    · rw [if_neg h1]
      by_cases h2 : (k.updates.send_beeper ∨ k.state.beeper ≠ last.beeper)
      · rw [if_pos h2]
        refine ⟨⟨fun hS => ?_, fun hS => ?_⟩, ⟨fun hK => ?_, fun hK => ?_⟩⟩ <;>
          first
            | (refine absurd hS ?_; (simp [isScreenMsg, isKeyAckMsg, screenFlagBit, keyAckValue, Command.toByte, get_toggle] <;> decide); done)
            | (refine absurd hK ?_; (simp [isScreenMsg, isKeyAckMsg, screenFlagBit, keyAckValue, Command.toByte, get_toggle] <;> decide); done)
            | ((refine ⟨?_, ?_⟩ <;> (simp [isScreenMsg, isKeyAckMsg, screenFlagBit, keyAckValue, Command.toByte, get_toggle] <;> decide)); done)
            | rfl
            | ((simp [isScreenMsg, isKeyAckMsg, screenFlagBit, keyAckValue, Command.toByte, get_toggle] <;> decide); done)
      · rw [if_neg h2]
        by_cases h3 : (k.updates.send_key_clicks ∨ k.state.key_clicks ≠ last.key_clicks)
        · rw [if_pos h3]
          refine ⟨⟨fun hS => ?_, fun hS => ?_⟩, ⟨fun hK => ?_, fun hK => ?_⟩⟩ <;>
            first
              | (refine absurd hS ?_; (simp [isScreenMsg, isKeyAckMsg, screenFlagBit, keyAckValue, Command.toByte, get_toggle] <;> decide); done)
              | (refine absurd hK ?_; (simp [isScreenMsg, isKeyAckMsg, screenFlagBit, keyAckValue, Command.toByte, get_toggle] <;> decide); done)
              | ((refine ⟨?_, ?_⟩ <;> (simp [isScreenMsg, isKeyAckMsg, screenFlagBit, keyAckValue, Command.toByte, get_toggle] <;> decide)); done)
              | rfl
              | ((simp [isScreenMsg, isKeyAckMsg, screenFlagBit, keyAckValue, Command.toByte, get_toggle] <;> decide); done)
        · rw [if_neg h3]
          by_cases h4 : (k.updates.send_screen ∨ k.state.screen ≠ last.screen
            ∨ k.state.blink ≠ last.blink)
          · rw [if_pos h4]
            cases hka : k.updates.send_key_ack <;>
              cases hsf : k.updates.screen_update_flag <;>
                cases hkf : k.updates.key_update_flag <;>
                  cases hbl : k.state.blink <;>
            · refine ⟨⟨fun hS => ?_, fun hS => ?_⟩, ⟨fun hK => ?_, fun hK => ?_⟩⟩ <;>
                first
                  | (refine absurd hS ?_; (simp [isScreenMsg, isKeyAckMsg, screenFlagBit, keyAckValue, Command.toByte, get_toggle] <;> decide); done)
                  | (refine absurd hK ?_; (simp [isScreenMsg, isKeyAckMsg, screenFlagBit, keyAckValue, Command.toByte, get_toggle] <;> decide); done)
                  | ((refine ⟨?_, ?_⟩ <;> (simp [isScreenMsg, isKeyAckMsg, screenFlagBit, keyAckValue, Command.toByte, get_toggle] <;> decide)); done)
                  | rfl
                  | ((simp [isScreenMsg, isKeyAckMsg, screenFlagBit, keyAckValue, Command.toByte, get_toggle] <;> decide); done)
          · rw [if_neg h4]
            by_cases h5 : k.updates.send_key_ack = true
            · rw [if_pos h5]
              cases hkf : k.updates.key_update_flag <;>
              · refine ⟨⟨fun hS => ?_, fun hS => ?_⟩, ⟨fun hK => ?_, fun hK => ?_⟩⟩ <;>
                  first
                    | (refine absurd hS ?_; (simp [isScreenMsg, isKeyAckMsg, screenFlagBit, keyAckValue, Command.toByte, get_toggle] <;> decide); done)
                    | (refine absurd hK ?_; (simp [isScreenMsg, isKeyAckMsg, screenFlagBit, keyAckValue, Command.toByte, get_toggle] <;> decide); done)
                    | ((refine ⟨?_, ?_⟩ <;> (simp [isScreenMsg, isKeyAckMsg, screenFlagBit, keyAckValue, Command.toByte, get_toggle] <;> decide)); done)
                    | rfl
                    | ((simp [isScreenMsg, isKeyAckMsg, screenFlagBit, keyAckValue, Command.toByte, get_toggle] <;> decide); done)
            · rw [if_neg h5]
              refine ⟨⟨fun hS => ?_, fun hS => ?_⟩, ⟨fun hK => ?_, fun hK => ?_⟩⟩ <;>
                first
                  | (refine absurd hS ?_; (simp [isScreenMsg, isKeyAckMsg, screenFlagBit, keyAckValue, Command.toByte, get_toggle] <;> decide); done)
                  | (refine absurd hK ?_; (simp [isScreenMsg, isKeyAckMsg, screenFlagBit, keyAckValue, Command.toByte, get_toggle] <;> decide); done)
                  | ((refine ⟨?_, ?_⟩ <;> (simp [isScreenMsg, isKeyAckMsg, screenFlagBit, keyAckValue, Command.toByte, get_toggle] <;> decide)); done)
                  | rfl
                  | ((simp [isScreenMsg, isKeyAckMsg, screenFlagBit, keyAckValue, Command.toByte, get_toggle] <;> decide); done)

theorem decide_mod_two_succ (n : Nat) :
    (!decide (n % 2 = 0)) = decide ((n + 1) % 2 = 0) := by
  rcases Nat.mod_two_eq_zero_or_one n with h | h
  · have h2 : (n + 1) % 2 = 1 := by omega
    simp [h, h2]
  · have h2 : (n + 1) % 2 = 0 := by omega
    simp [h, h2]

theorem runTrace_freshness (ops : List KeypadOp) :
    ∀ (k : SerialKeypad) (ns nk : Nat),
      k.updates.screen_update_flag = decide (ns % 2 = 0) →
      k.updates.key_update_flag = decide (nk % 2 = 0) →
      (∀ idx, idx < ((runTrace k ops).2.filter isScreenMsg).length →
        screenFlagBit (((runTrace k ops).2.filter isScreenMsg).getD idx (0, none))
          = decide ((ns + idx) % 2 = 0)) ∧
      (∀ idx, idx < ((runTrace k ops).2.filter isKeyAckMsg).length →
        keyAckValue (((runTrace k ops).2.filter isKeyAckMsg).getD idx (0, none))
          = (if (nk + idx) % 2 = 0 then 2 else 0)) ∧
      ((runTrace k ops).1.updates.screen_update_flag
        = decide ((ns + ((runTrace k ops).2.filter isScreenMsg).length) % 2 = 0)) ∧
      ((runTrace k ops).1.updates.key_update_flag
        = decide ((nk + ((runTrace k ops).2.filter isKeyAckMsg).length) % 2 = 0)) := by
  induction ops with
  | nil =>
    intro k ns nk hs hk
    refine ⟨?_, ?_, ?_, ?_⟩
    · intro idx h
      exact absurd h (by simp [runTrace])
    · intro idx h
      exact absurd h (by simp [runTrace])
    · simpa [runTrace] using hs
    · simpa [runTrace] using hk

  | cons op rest ih =>
    intro k ns nk hs hk
    cases op with
    | mutate f =>
      have hstep : runTrace k (KeypadOp.mutate f :: rest)
          = runTrace { k with state := f k.state } rest := by
        simp [runTrace, stepOp]
      rw [hstep]
      exact ih _ ns nk hs hk
    | receive msg =>
      have hstep : runTrace k (KeypadOp.receive msg :: rest)
          = runTrace (receive_update k msg).1 rest := by
        simp [runTrace, stepOp]
      rw [hstep]
      exact ih _ ns nk ((receive_update_toggles k msg).1.trans hs)
        ((receive_update_toggles k msg).2.trans hk)
    | next =>
      have hstep : runTrace k (KeypadOp.next :: rest)
          = ((runTrace (next_message k).2 rest).1,
             (next_message k).1 :: (runTrace (next_message k).2 rest).2) := by
        simp [runTrace, stepOp]
      rw [hstep]
      obtain ⟨⟨hsT, hsF⟩, hkT, hkF⟩ := next_message_toggle k
      cases hSb : isScreenMsg (next_message k).1 with
      | true =>
        obtain ⟨hbit, hflip⟩ := hsT hSb
        cases hKb : isKeyAckMsg (next_message k).1 with
        | true =>
          obtain ⟨hval, hkflip⟩ := hkT hKb
          obtain ⟨ihA, ihB, ihC, ihD⟩ := ih (next_message k).2 (ns + 1) (nk + 1)
            (by rw [hflip, hs, decide_mod_two_succ])
            (by rw [hkflip, hk, decide_mod_two_succ])
          refine ⟨?_, ?_, ?_, ?_⟩
          · intro idx h
            rw [List.filter_cons_of_pos hSb] at h ⊢
            cases idx with
            | zero => simp [hbit, hs]
            | succ i =>
              have harith : ns + 1 + i = ns + (i + 1) := by omega
              have := ihA i (by simpa using h)
              rw [harith] at this
              simpa using this
          · intro idx h
            rw [List.filter_cons_of_pos hKb] at h ⊢
            cases idx with
            | zero => simp [hval, hk]
            | succ i =>
              have harith : nk + 1 + i = nk + (i + 1) := by omega
              have := ihB i (by simpa using h)
              rw [harith] at this
              simpa using this
          · rw [List.filter_cons_of_pos hSb]
            have harith : ns + 1 + ((runTrace (next_message k).2 rest).2.filter isScreenMsg).length
                = ns + (((runTrace (next_message k).2 rest).2.filter isScreenMsg).length + 1) := by
              omega
            rw [harith] at ihC
            simpa using ihC
          · rw [List.filter_cons_of_pos hKb]
            have harith : nk + 1 + ((runTrace (next_message k).2 rest).2.filter isKeyAckMsg).length
                = nk + (((runTrace (next_message k).2 rest).2.filter isKeyAckMsg).length + 1) := by
              omega
            rw [harith] at ihD
            simpa using ihD
        | false =>
          have hkeep := hkF hKb
          obtain ⟨ihA, ihB, ihC, ihD⟩ := ih (next_message k).2 (ns + 1) nk
            (by rw [hflip, hs, decide_mod_two_succ])
            (by rw [hkeep, hk])
          refine ⟨?_, ?_, ?_, ?_⟩
          · intro idx h
            rw [List.filter_cons_of_pos hSb] at h ⊢
            cases idx with
            | zero => simp [hbit, hs]
            | succ i =>
              have harith : ns + 1 + i = ns + (i + 1) := by omega
              have := ihA i (by simpa using h)
              rw [harith] at this
              simpa using this
          · intro idx h
            rw [List.filter_cons_of_neg (by simp [hKb])] at h ⊢
            exact ihB idx h
          · rw [List.filter_cons_of_pos hSb]
            have harith : ns + 1 + ((runTrace (next_message k).2 rest).2.filter isScreenMsg).length
                = ns + (((runTrace (next_message k).2 rest).2.filter isScreenMsg).length + 1) := by
              omega
            rw [harith] at ihC
            simpa using ihC
          · rw [List.filter_cons_of_neg (by simp [hKb])]
            exact ihD
      | false =>
        have hskeep := hsF hSb
        cases hKb : isKeyAckMsg (next_message k).1 with
        | true =>
          obtain ⟨hval, hkflip⟩ := hkT hKb
          obtain ⟨ihA, ihB, ihC, ihD⟩ := ih (next_message k).2 ns (nk + 1)
            (by rw [hskeep, hs])
            (by rw [hkflip, hk, decide_mod_two_succ])
          refine ⟨?_, ?_, ?_, ?_⟩
          · intro idx h
            rw [List.filter_cons_of_neg (by simp [hSb])] at h ⊢
            exact ihA idx h
          · intro idx h
            rw [List.filter_cons_of_pos hKb] at h ⊢
            cases idx with
            | zero => simp [hval, hk]
            | succ i =>
              have harith : nk + 1 + i = nk + (i + 1) := by omega
              have := ihB i (by simpa using h)
              rw [harith] at this
              simpa using this
          · rw [List.filter_cons_of_neg (by simp [hSb])]
            exact ihC
          · rw [List.filter_cons_of_pos hKb]
            have harith : nk + 1 + ((runTrace (next_message k).2 rest).2.filter isKeyAckMsg).length
                = nk + (((runTrace (next_message k).2 rest).2.filter isKeyAckMsg).length + 1) := by
              omega
            rw [harith] at ihD
            simpa using ihD
        | false =>
          have hkeep := hkF hKb
          obtain ⟨ihA, ihB, ihC, ihD⟩ := ih (next_message k).2 ns nk
            (by rw [hskeep, hs])
            (by rw [hkeep, hk])
          refine ⟨?_, ?_, ?_, ?_⟩
          · intro idx h
            rw [List.filter_cons_of_neg (by simp [hSb])] at h ⊢
            exact ihA idx h
          · intro idx h
            rw [List.filter_cons_of_neg (by simp [hKb])] at h ⊢
            exact ihB idx h
          · rw [List.filter_cons_of_neg (by simp [hSb])]
            exact ihC
          · rw [List.filter_cons_of_neg (by simp [hKb])]
            exact ihD

/-- C3 (amended): across every execution trace of a freshly constructed
`SerialKeypad`, the screen-freshness bit in the k-th actually emitted
screen command is 0x80 when k is odd and 0x00 when k is even (`idx` below
is 0-based, so `idx % 2 = 0` is this parity), and the key-freshness value
in the k-th actually emitted key acknowledgement is 0x02 when k is odd
and 0x00 when k is even — both toggles start `true`, so in particular the
first `ButtonAck` payload is `[0x02]`, not `[0x00]`. Candidate commands
that are never emitted do not toggle either bit: after any trace each
stored toggle equals the parity of the number of corresponding emissions. -/
theorem freshness_bits (ops : List KeypadOp) :
    (∀ idx, idx < ((runTrace SerialKeypad.default ops).2.filter isScreenMsg).length →
      screenFlagBit
          (((runTrace SerialKeypad.default ops).2.filter isScreenMsg).getD idx (0, none))
        = decide (idx % 2 = 0)) ∧
    (∀ idx, idx < ((runTrace SerialKeypad.default ops).2.filter isKeyAckMsg).length →
      keyAckValue
          (((runTrace SerialKeypad.default ops).2.filter isKeyAckMsg).getD idx (0, none))
        = (if idx % 2 = 0 then 2 else 0)) ∧
    ((runTrace SerialKeypad.default ops).1.updates.screen_update_flag
      = decide (((runTrace SerialKeypad.default ops).2.filter isScreenMsg).length % 2 = 0)) ∧
    ((runTrace SerialKeypad.default ops).1.updates.key_update_flag
      = decide (((runTrace SerialKeypad.default ops).2.filter isKeyAckMsg).length % 2 = 0)) := by
  have h := runTrace_freshness ops SerialKeypad.default 0 0 rfl rfl
  refine ⟨?_, ?_, ?_, ?_⟩
  · intro idx hidx
    simpa using h.1 idx hidx
  · intro idx hidx
    simpa using h.2.1 idx hidx
  · simpa using h.2.2.1
  · simpa using h.2.2.2

/-- C3 witness: after initialisation and the four forced drains, the first
(and only) emitted screen command carries freshness bit 0x80. -/
theorem freshness_bits_witness :
    screenFlagBit (((runTrace SerialKeypad.default
        [KeypadOp.receive (Except.ok ⟨0x10, 0xFF, some [0x08, 0x00, 0x64]⟩),
         KeypadOp.next, KeypadOp.next, KeypadOp.next, KeypadOp.next]).2.filter
          isScreenMsg).getD 0 (0, none)) = decide ((0 : Nat) % 2 = 0) :=
  (freshness_bits
    [KeypadOp.receive (Except.ok ⟨0x10, 0xFF, some [0x08, 0x00, 0x64]⟩),
     KeypadOp.next, KeypadOp.next, KeypadOp.next, KeypadOp.next]).1 0 (by decide)

/-- C3 counterexample: initialise a fresh keypad, drain the four forced
commands, deliver a key press, and poll: the first `ButtonAck` ever
emitted carries payload `[0x02]`, refuting the claim that the k-th key
acknowledgement is 0x00 for odd k (first `ButtonAck` payload `[0x00]`). -/
theorem freshness_bits_counterexample :
    ((runTrace SerialKeypad.default
        [KeypadOp.receive (Except.ok ⟨0x10, 0xFF, some [0x08, 0x00, 0x64]⟩),
         KeypadOp.next, KeypadOp.next, KeypadOp.next, KeypadOp.next,
         KeypadOp.receive (Except.ok ⟨0x10, 0xF4, some [0x05]⟩),
         KeypadOp.next]).2.filter (fun m => m.1 == 0x0B))
      = [(0x0B, some [0x02])] ∧ (0x02 : Nat) ≠ 0x00 := by
  exact ⟨by decide, by decide⟩

/-! ### Display simulator (C4)

A simulator of the keypad's on-device cell buffer and cursor, as the spec
prescribes for checking diff soundness. Cells live at offsets 0..15
(line 0) and 0x40..0x4F (line 1). A byte stream is interpreted exactly as
the wire protocol defines: `0x01`/`0x02` seek to a line start, `0x03 n`
seeks to absolute offset `n`, `0x06`/`0x07`/`0x10` set the cursor style,
and any other byte is a literal character written at the cursor, which
then advances. -/

structure Sim where
  cells : Nat → Nat
  cursor : Option Nat
  style : CursorStyle

def validOffset (o : Nat) : Prop := o < 16 ∨ (0x40 ≤ o ∧ o < 0x50)

/-- The screen a display state renders to: padded lines as wire bytes. -/
def renderCells (s : KeypadDisplayState) : Nat → Nat := fun o =>
  if o < 16 then (pad16 s.line0).getD o 0x20 % 256
  else if 0x40 ≤ o ∧ o < 0x50 then (pad16 s.line1).getD (o - 0x40) 0x20 % 256
  else 0

def applyBytes : Sim → List Nat → Sim
  | σ, [] => σ
  | σ, b :: rest =>
    if b = 0x01 then applyBytes { σ with cursor := some 0x00 } rest
    else if b = 0x02 then applyBytes { σ with cursor := some 0x40 } rest
    else if b = 0x03 then
      match rest with
      | [] => σ
      | off :: rest2 => applyBytes { σ with cursor := some off } rest2
    else if b = 0x06 then applyBytes { σ with style := CursorStyle.Block } rest
    else if b = 0x07 then applyBytes { σ with style := CursorStyle.None } rest
    else if b = 0x10 then applyBytes { σ with style := CursorStyle.Underline } rest
    else
      match σ.cursor with
      | none => applyBytes σ rest
      | some p =>
        applyBytes { σ with cells := fun o => if o = p then b else σ.cells o,
                            cursor := some (p + 1) } rest

theorem applyBytes_op1 (σ : Sim) (l : List Nat) :
    applyBytes σ (0x01 :: l) = applyBytes { σ with cursor := some 0x00 } l := by
  rw [applyBytes.eq_def]
  norm_num

theorem applyBytes_op2 (σ : Sim) (l : List Nat) :
    applyBytes σ (0x02 :: l) = applyBytes { σ with cursor := some 0x40 } l := by
  rw [applyBytes.eq_def]
  norm_num

theorem applyBytes_seek (σ : Sim) (off : Nat) (l : List Nat) :
    applyBytes σ (0x03 :: off :: l) = applyBytes { σ with cursor := some off } l := by
  rw [applyBytes.eq_def]
  norm_num

theorem applyBytes_data (σ : Sim) (c : Nat) (hc1 : 0x20 ≤ c) (hc2 : c < 256)
    (l : List Nat) :
    applyBytes σ (c :: l)
      = applyBytes
          (match σ.cursor with
           | none => σ
           | some p =>
             { σ with cells := fun o => if o = p then c else σ.cells o,
                      cursor := some (p + 1) }) l := by
  rw [applyBytes.eq_def]
  dsimp only
  rw [if_neg (by omega), if_neg (by omega), if_neg (by omega), if_neg (by omega),
    if_neg (by omega), if_neg (by omega)]
  cases σ.cursor <;> rfl

theorem pad16_length (l : List Nat) : (pad16 l).length = 16 := by
  simp [pad16]

theorem pad16_mem {l : List Nat} {c : Nat} (h : c ∈ pad16 l) : c ∈ l ∨ c = 0x20 := by
  unfold pad16 at h
  have := List.mem_append.mp (List.mem_of_mem_take h)
  rcases this with h1 | h1
  · exact Or.inl h1
  · exact Or.inr (List.eq_of_mem_replicate h1)

theorem zip_getD : ∀ (l1 l2 : List Nat) (n : Nat), n < l1.length → n < l2.length →
    (l1.zip l2).getD n (0, 0) = (l1.getD n 0, l2.getD n 0) := by
  intro l1
  induction l1 with
  | nil => intro l2 n h1 _; exact absurd h1 (by simp)
  | cons a as ih =>
    intro l2 n h1 h2
    cases l2 with
    | nil => exact absurd h2 (by simp)
    | cons b bs =>
      cases n with
      | zero => rfl
      | succ m => simpa using ih bs m (by simpa using h1) (by simpa using h2)

theorem zip_length {l1 l2 : List Nat} (h : l1.length = l2.length) :
    (l1.zip l2).length = l1.length := by
  simp [List.length_zip, h]


theorem applyBytes_nil (σ : Sim) : applyBytes σ [] = σ := rfl

theorem applyBytes_op6 (σ : Sim) (l : List Nat) :
    applyBytes σ (0x06 :: l) = applyBytes { σ with style := CursorStyle.Block } l := by
  rw [applyBytes.eq_def]
  norm_num

theorem applyBytes_op7 (σ : Sim) (l : List Nat) :
    applyBytes σ (0x07 :: l) = applyBytes { σ with style := CursorStyle.None } l := by
  rw [applyBytes.eq_def]
  norm_num

theorem applyBytes_op16 (σ : Sim) (l : List Nat) :
    applyBytes σ (0x10 :: l) = applyBytes { σ with style := CursorStyle.Underline } l := by
  rw [applyBytes.eq_def]
  norm_num

theorem applyBytes_data_none (σ : Sim) (c : Nat) (hc1 : 0x20 ≤ c) (hc2 : c < 256)
    (l : List Nat) (h : σ.cursor = none) :
    applyBytes σ (c :: l) = applyBytes σ l := by
  rw [applyBytes_data σ c hc1 hc2 l, h]

theorem applyBytes_data_some (σ : Sim) (c p : Nat) (hc1 : 0x20 ≤ c) (hc2 : c < 256)
    (l : List Nat) (h : σ.cursor = some p) :
    applyBytes σ (c :: l)
      = applyBytes { σ with cells := fun o => if o = p then c else σ.cells o,
                            cursor := some (p + 1) } l := by
  rw [applyBytes_data σ c hc1 hc2 l, h]

theorem stepCell_skip (i j a b : Nat) (d : List Nat) (cur sk : Option Nat) (hab : a = b) :
    KeypadDisplayState.partialStepCell i j a b d cur sk = (d, cur, some b) := by
  simp [KeypadDisplayState.partialStepCell, hab]

theorem stepCell_lookback (i j a b pc s0 : Nat) (d : List Nat) (hab : a ≠ b)
    (hpc : pc + 1 = i * 0x40 + j) :
    KeypadDisplayState.partialStepCell i j a b d (some pc) (some s0)
      = (d ++ [s0 % 256, b % 256], some (i * 0x40 + j + 1), none) := by
  have hdiff : i * 0x40 + j - pc = 1 := by omega
  simp [KeypadDisplayState.partialStepCell, hab, hdiff]

theorem stepCell_adjacent (i j a b pc : Nat) (d : List Nat) (sk : Option Nat) (hab : a ≠ b)
    (hpc : pc = i * 0x40 + j) :
    KeypadDisplayState.partialStepCell i j a b d (some pc) sk
      = (d ++ [b % 256], some (i * 0x40 + j + 1), none) := by
  have hdiff : i * 0x40 + j - pc = 0 := by omega
  simp [KeypadDisplayState.partialStepCell, hab, hdiff]

theorem stepCell_seek (i j a b : Nat) (d : List Nat) (cur sk : Option Nat) (hab : a ≠ b)
    (hj : j ≠ 0) (hfar : ∀ p, cur = some p → p + 2 ≤ i * 0x40 + j) :
    KeypadDisplayState.partialStepCell i j a b d cur sk
      = (d ++ [0x03, i * 0x40 + j, b % 256], some (i * 0x40 + j + 1), none) := by
  cases cur with
  | none =>
    simp only [KeypadDisplayState.partialStepCell]
    rw [if_pos hab]
    dsimp only
    rw [if_neg (by rintro ⟨h1, -⟩; omega), if_pos (by omega), if_neg hj]
    simp
  | some p =>
    have hp := hfar p rfl
    simp only [KeypadDisplayState.partialStepCell]
    rw [if_pos hab]
    dsimp only
    rw [if_neg (by rintro ⟨h1, -⟩; omega), if_pos (by omega), if_neg hj]
    simp

theorem stepCell_linestart0 (i j a b : Nat) (d : List Nat) (cur sk : Option Nat) (hab : a ≠ b)
    (hj0 : j = 0) (hfar : ∀ p, cur = some p → p + 2 ≤ i * 0x40 + j) :
    KeypadDisplayState.partialStepCell i j a b d cur sk
      = (d ++ [if i = 0 then 0x01 else 0x02, b % 256], some (i * 0x40 + j + 1), none) := by
  subst hj0
  cases cur with
  | none =>
    simp only [KeypadDisplayState.partialStepCell]
    rw [if_pos hab]
    rw [if_neg (by rintro ⟨h1, -⟩; omega), if_pos (by omega)]
    simp
  | some p =>
    have hp := hfar p rfl
    simp only [KeypadDisplayState.partialStepCell]
    rw [if_pos hab]
    rw [if_neg (by rintro ⟨h1, -⟩; omega), if_pos (by omega)]
    simp

theorem stepCell_append (i j a b : Nat) (d : List Nat) (cur sk : Option Nat) :
    KeypadDisplayState.partialStepCell i j a b d cur sk
      = (d ++ (KeypadDisplayState.partialStepCell i j a b [] cur sk).1,
         (KeypadDisplayState.partialStepCell i j a b [] cur sk).2) := by
  simp only [KeypadDisplayState.partialStepCell]
  split_ifs <;> simp

theorem walk_append (i : Nat) :
    ∀ (ps : List (Nat × Nat)) (j : Nat) (d : List Nat) (cur sk : Option Nat),
    KeypadDisplayState.partialWalkLine i j ps d cur sk
      = (d ++ (KeypadDisplayState.partialWalkLine i j ps [] cur sk).1,
         (KeypadDisplayState.partialWalkLine i j ps [] cur sk).2) := by
  intro ps
  induction ps with
  | nil => intro j d cur sk; simp [KeypadDisplayState.partialWalkLine]
  | cons hd rest ih =>
    intro j d cur sk
    obtain ⟨a, b⟩ := hd
    simp only [KeypadDisplayState.partialWalkLine]
    rw [stepCell_append i j a b d cur sk]
    dsimp only
    rw [ih (j + 1) (d ++ (KeypadDisplayState.partialStepCell i j a b [] cur sk).1)
        (KeypadDisplayState.partialStepCell i j a b [] cur sk).2.1
        (KeypadDisplayState.partialStepCell i j a b [] cur sk).2.2,
      ih (j + 1) (KeypadDisplayState.partialStepCell i j a b [] cur sk).1
        (KeypadDisplayState.partialStepCell i j a b [] cur sk).2.1
        (KeypadDisplayState.partialStepCell i j a b [] cur sk).2.2]
    simp

theorem getD_default_irrel {l : List Nat} {n : Nat} (h : n < l.length) (d1 d2 : Nat) :
    l.getD n d1 = l.getD n d2 := by
  rw [List.getD_eq_getElem l d1 h, List.getD_eq_getElem l d2 h]

theorem pad16_getD_bounds {l : List Nat} (hl : ∀ c ∈ l, 0x20 ≤ c ∧ c < 256) (t : Nat) :
    0x20 ≤ (pad16 l).getD t 0x20 ∧ (pad16 l).getD t 0x20 < 256 := by
  by_cases h : t < (pad16 l).length
  · rw [List.getD_eq_getElem _ _ h]
    have hmem : (pad16 l)[t] ∈ pad16 l := List.getElem_mem h
    rcases pad16_mem hmem with h1 | h1
    · exact hl _ h1
    · rw [h1]; exact ⟨le_refl _, by norm_num⟩
  · rw [List.getD_eq_default _ _ (by omega)]
    exact ⟨le_refl _, by norm_num⟩

theorem zip_pad16_getD (f t : List Nat) (n : Nat) (hn : n < 16) :
    ((pad16 f).zip (pad16 t)).getD n (0, 0)
      = ((pad16 f).getD n 0x20, (pad16 t).getD n 0x20) := by
  have h1 : n < (pad16 f).length := by rw [pad16_length]; exact hn
  have h2 : n < (pad16 t).length := by rw [pad16_length]; exact hn
  rw [zip_getD _ _ _ h1 h2, getD_default_irrel h1 0 0x20, getD_default_irrel h2 0 0x20]

theorem renderCells_line0 (s : KeypadDisplayState) (o : Nat) (h : o < 16) :
    renderCells s o = (pad16 s.line0).getD o 0x20 % 256 := by
  simp [renderCells, h]

theorem renderCells_line1 (s : KeypadDisplayState) (o : Nat) (h1 : 0x40 ≤ o)
    (h2 : o < 0x50) :
    renderCells s o = (pad16 s.line1).getD (o - 0x40) 0x20 % 256 := by
  have h3 : ¬ o < 16 := by omega
  simp [renderCells, h1, h2, h3]

theorem renderCells_invalid (s : KeypadDisplayState) (o : Nat) (h1 : ¬ o < 16)
    (h2 : ¬ (0x40 ≤ o ∧ o < 0x50)) :
    renderCells s o = 0 := by
  simp [renderCells, h1, h2]

/-- The inductive invariant of the partial-update walk over one display
line: starting from a simulator whose cells hold the from-characters of
the remaining segment, applying the walk's emitted bytes rewrites exactly
that segment to the to-characters, touches nothing else, preserves the
style, and leaves the simulated cursor equal to the walk's tracked one. -/
def WalkIH (i : Nat) (ps : List (Nat × Nat)) : Prop :=
  ∀ (j : Nat) (σ : Sim) (cur sk : Option Nat),
    j + ps.length ≤ 16 →
    (∀ p ∈ ps, 0x20 ≤ p.1 ∧ p.1 < 256 ∧ 0x20 ≤ p.2 ∧ p.2 < 256) →
    (∀ t, t < ps.length → σ.cells (i * 0x40 + j + t) = (ps.getD t (0, 0)).1) →
    σ.cursor = cur →
    (∀ pc, cur = some pc → pc ≤ i * 0x40 + j ∧ (i * 0x40 ≤ pc ∨ pc ≤ 16)) →
    (∀ pc, cur = some pc → pc + 1 = i * 0x40 + j → sk.isSome = true) →
    (∀ s, sk = some s → 0x20 ≤ s ∧ s < 256 ∧
        ∀ pc, cur = some pc → pc + 1 = i * 0x40 + j → σ.cells pc = s) →
    ∃ σ' : Sim,
      (∀ tl, applyBytes σ ((KeypadDisplayState.partialWalkLine i j ps [] cur sk).1 ++ tl)
          = applyBytes σ' tl) ∧
      (∀ t, t < ps.length → σ'.cells (i * 0x40 + j + t) = (ps.getD t (0, 0)).2) ∧
      (∀ o, (∀ t, t < ps.length → o ≠ i * 0x40 + j + t) → σ'.cells o = σ.cells o) ∧
      σ'.style = σ.style ∧
      σ'.cursor = (KeypadDisplayState.partialWalkLine i j ps [] cur sk).2 ∧
      (∀ pc, (KeypadDisplayState.partialWalkLine i j ps [] cur sk).2 = some pc →
        pc ≤ i * 0x40 + j + ps.length ∧ (i * 0x40 ≤ pc ∨ pc ≤ 16))

theorem walk_step_write (i a b : Nat) (rest : List (Nat × Nat)) (j : Nat)
    (σ σ₂ : Sim) (cur sk : Option Nat) (e : List Nat)
    (IH : WalkIH i rest)
    (hj : j + rest.length + 1 ≤ 16)
    (hvr : ∀ p ∈ rest, 0x20 ≤ p.1 ∧ p.1 < 256 ∧ 0x20 ≤ p.2 ∧ p.2 < 256)
    (hcells : ∀ t, t < rest.length + 1 →
        σ.cells (i * 0x40 + j + t) = (((a, b) :: rest).getD t (0, 0)).1)
    (hw1 : (KeypadDisplayState.partialWalkLine i j ((a, b) :: rest) [] cur sk).1
        = e ++ (KeypadDisplayState.partialWalkLine i (j + 1) rest []
            (some (i * 0x40 + j + 1)) none).1)
    (hw2 : (KeypadDisplayState.partialWalkLine i j ((a, b) :: rest) [] cur sk).2
        = (KeypadDisplayState.partialWalkLine i (j + 1) rest []
            (some (i * 0x40 + j + 1)) none).2)
    (hrun2 : ∀ Y, applyBytes σ (e ++ Y) = applyBytes σ₂ Y)
    (hnew : σ₂.cells (i * 0x40 + j) = b)
    (hframe2 : ∀ o, o ≠ i * 0x40 + j → σ₂.cells o = σ.cells o)
    (h2cur : σ₂.cursor = some (i * 0x40 + j + 1))
    (h2sty : σ₂.style = σ.style) :
    ∃ σ' : Sim,
      (∀ tl, applyBytes σ
          ((KeypadDisplayState.partialWalkLine i j ((a, b) :: rest) [] cur sk).1 ++ tl)
          = applyBytes σ' tl) ∧
      (∀ t, t < rest.length + 1 →
          σ'.cells (i * 0x40 + j + t) = (((a, b) :: rest).getD t (0, 0)).2) ∧
      (∀ o, (∀ t, t < rest.length + 1 → o ≠ i * 0x40 + j + t) → σ'.cells o = σ.cells o) ∧
      σ'.style = σ.style ∧
      σ'.cursor = (KeypadDisplayState.partialWalkLine i j ((a, b) :: rest) [] cur sk).2 ∧
      (∀ pc, (KeypadDisplayState.partialWalkLine i j ((a, b) :: rest) [] cur sk).2 = some pc →
          pc ≤ i * 0x40 + j + (rest.length + 1) ∧ (i * 0x40 ≤ pc ∨ pc ≤ 16)) := by
  obtain ⟨σ', hrun, hA, hB, hsty, hcur2, hE⟩ :=
    IH (j + 1) σ₂ (some (i * 0x40 + j + 1)) none
      (by omega)
      hvr
      (by intro t ht
          rw [hframe2 _ (by omega)]
          have harith : i * 0x40 + (j + 1) + t = i * 0x40 + j + (t + 1) := by omega
          rw [harith, hcells (t + 1) (by omega)]
          simp)
      h2cur
      (by intro pc hpc
          injection hpc with hpc
          subst hpc
          exact ⟨by omega, Or.inl (by omega)⟩)
      (by intro pc hpc h1
          injection hpc with hpc
          omega)
      (by intro s hs; exact absurd hs (by simp))
  refine ⟨σ', ?_, ?_, ?_, hsty.trans h2sty, ?_, ?_⟩
  · intro tl
    rw [hw1, List.append_assoc, hrun2, hrun tl]
  · intro t ht
    cases t with
    | zero =>
      have hfr := hB (i * 0x40 + j) (by intro t' ht'; omega)
      simpa using hfr.trans hnew
    | succ t' =>
      have h1 := hA t' (by omega)
      have harith : i * 0x40 + (j + 1) + t' = i * 0x40 + j + (t' + 1) := by omega
      rw [harith] at h1
      simpa using h1
  · intro o ho
    have h0 : o ≠ i * 0x40 + j := by
      have := ho 0 (by omega)
      simpa using this
    rw [hB o (by intro t' ht'; have := ho (t' + 1) (by omega); omega), hframe2 o h0]
  · rw [hw2]; exact hcur2
  · intro pc hpc
    rw [hw2] at hpc
    obtain ⟨h1, h2⟩ := hE pc hpc
    exact ⟨by omega, h2⟩

theorem applyBytes_linestart (σ : Sim) (i : Nat) (hi : i ≤ 1) (l : List Nat) :
    applyBytes σ ((if i = 0 then 0x01 else 0x02) :: l)
      = applyBytes { σ with cursor := some (i * 0x40) } l := by
  interval_cases i
  · rw [if_pos rfl]
    simpa using applyBytes_op1 σ l
  · rw [if_neg (by omega)]
    simpa using applyBytes_op2 σ l

theorem applyBytes_linestart2 (σ : Sim) (i : Nat) (hi : i ≤ 1) (o : Nat) (ho : o = i * 0x40)
    (l : List Nat) :
    applyBytes σ ((if i = 0 then 0x01 else 0x02) :: l)
      = applyBytes { σ with cursor := some o } l := by
  subst ho
  exact applyBytes_linestart σ i hi l

theorem walk_step_far (i : Nat) (hi : i ≤ 1) (a b : Nat) (rest : List (Nat × Nat)) (j : Nat)
    (σ : Sim) (cur sk : Option Nat)
    (IH : WalkIH i rest)
    (hab : ¬ a = b) (hb1 : 0x20 ≤ b) (hb2 : b < 256)
    (hjlen : j + rest.length + 1 ≤ 16)
    (hvr : ∀ p ∈ rest, 0x20 ≤ p.1 ∧ p.1 < 256 ∧ 0x20 ≤ p.2 ∧ p.2 < 256)
    (hcells2 : ∀ t, t < rest.length + 1 →
        σ.cells (i * 0x40 + j + t) = (((a, b) :: rest).getD t (0, 0)).1)
    (hcur : σ.cursor = cur)
    (hfar : ∀ p, cur = some p → p + 2 ≤ i * 0x40 + j) :
    ∃ σ' : Sim,
      (∀ tl, applyBytes σ
          ((KeypadDisplayState.partialWalkLine i j ((a, b) :: rest) [] cur sk).1 ++ tl)
          = applyBytes σ' tl) ∧
      (∀ t, t < rest.length + 1 →
          σ'.cells (i * 0x40 + j + t) = (((a, b) :: rest).getD t (0, 0)).2) ∧
      (∀ o, (∀ t, t < rest.length + 1 → o ≠ i * 0x40 + j + t) → σ'.cells o = σ.cells o) ∧
      σ'.style = σ.style ∧
      σ'.cursor = (KeypadDisplayState.partialWalkLine i j ((a, b) :: rest) [] cur sk).2 ∧
      (∀ pc, (KeypadDisplayState.partialWalkLine i j ((a, b) :: rest) [] cur sk).2 = some pc →
          pc ≤ i * 0x40 + j + (rest.length + 1) ∧ (i * 0x40 ≤ pc ∨ pc ≤ 16)) := by
  have hbmod : b % 256 = b := Nat.mod_eq_of_lt hb2
  have key : ∃ e : List Nat,
      (KeypadDisplayState.partialWalkLine i j ((a, b) :: rest) [] cur sk).1
        = e ++ (KeypadDisplayState.partialWalkLine i (j + 1) rest []
            (some (i * 0x40 + j + 1)) none).1 ∧
      (KeypadDisplayState.partialWalkLine i j ((a, b) :: rest) [] cur sk).2
        = (KeypadDisplayState.partialWalkLine i (j + 1) rest []
            (some (i * 0x40 + j + 1)) none).2 ∧
      ∀ Y, applyBytes σ (e ++ Y)
        = applyBytes { σ with cells := fun o => if o = i * 0x40 + j then b else σ.cells o,
                              cursor := some (i * 0x40 + j + 1) } Y := by
    by_cases hj0 : j = 0
    · have hstep := stepCell_linestart0 i j a b [] cur sk hab hj0 hfar
      have hw : KeypadDisplayState.partialWalkLine i j ((a, b) :: rest) [] cur sk
          = KeypadDisplayState.partialWalkLine i (j + 1) rest
              [if i = 0 then 0x01 else 0x02, b % 256] (some (i * 0x40 + j + 1)) none := by
        simp only [KeypadDisplayState.partialWalkLine]
        rw [hstep]
        simp
      have hwsplit := walk_append i rest (j + 1) [if i = 0 then 0x01 else 0x02, b % 256]
          (some (i * 0x40 + j + 1)) none
      refine ⟨[if i = 0 then 0x01 else 0x02, b % 256],
        by rw [hw, hwsplit], by rw [hw, hwsplit], ?_⟩
      intro Y
      rw [hbmod]
      exact (applyBytes_linestart2 σ i hi (i * 0x40 + j) (by omega) (b :: Y)).trans
        (applyBytes_data_some _ b (i * 0x40 + j) hb1 hb2 Y rfl)
    · have hstep := stepCell_seek i j a b [] cur sk hab hj0 hfar
      have hw : KeypadDisplayState.partialWalkLine i j ((a, b) :: rest) [] cur sk
          = KeypadDisplayState.partialWalkLine i (j + 1) rest
              [0x03, i * 0x40 + j, b % 256] (some (i * 0x40 + j + 1)) none := by
        simp only [KeypadDisplayState.partialWalkLine]
        rw [hstep]
        simp
      have hwsplit := walk_append i rest (j + 1) [0x03, i * 0x40 + j, b % 256]
          (some (i * 0x40 + j + 1)) none
      refine ⟨[0x03, i * 0x40 + j, b % 256],
        by rw [hw, hwsplit], by rw [hw, hwsplit], ?_⟩
      intro Y
      rw [hbmod]
      exact (applyBytes_seek σ (i * 0x40 + j) (b :: Y)).trans
        (applyBytes_data_some _ b (i * 0x40 + j) hb1 hb2 Y rfl)
  obtain ⟨e, hw1, hw2, hrun2⟩ := key
  exact walk_step_write i a b rest j σ _ cur sk e IH hjlen hvr hcells2 hw1 hw2 hrun2
    (by show (if i * 0x40 + j = i * 0x40 + j then b else σ.cells (i * 0x40 + j)) = b
        rw [if_pos rfl])
    (by intro o ho
        show (if o = i * 0x40 + j then b else σ.cells o) = σ.cells o
        rw [if_neg ho])
    rfl rfl

theorem walkLine_sound (i : Nat) (hi : i ≤ 1) : ∀ ps : List (Nat × Nat), WalkIH i ps := by
  intro ps
  induction ps with
  | nil =>
    intro j σ cur sk hj hvals hcells hcur hcurb hlook hskip
    refine ⟨σ, ?_, ?_, ?_, rfl, ?_, ?_⟩
    · intro tl; rfl
    · intro t ht; simp at ht
    · intro o _; rfl
    · simpa [KeypadDisplayState.partialWalkLine] using hcur
    · intro pc hpc
      simp only [KeypadDisplayState.partialWalkLine] at hpc
      obtain ⟨h1, h2⟩ := hcurb pc hpc
      exact ⟨by simpa using h1, h2⟩
  | cons hd rest ih =>
    intro j σ cur sk hj hvals hcells hcur hcurb hlook hskip
    obtain ⟨a, b⟩ := hd
    obtain ⟨ha1, ha2, hb1, hb2⟩ := hvals (a, b) (List.mem_cons_self _ _)
    have hjlen : j + rest.length + 1 ≤ 16 := by simp at hj; omega
    have hvr : ∀ p ∈ rest, 0x20 ≤ p.1 ∧ p.1 < 256 ∧ 0x20 ≤ p.2 ∧ p.2 < 256 :=
      fun p hp => hvals p (List.mem_cons_of_mem _ hp)
    have hcells2 : ∀ t, t < rest.length + 1 →
        σ.cells (i * 0x40 + j + t) = (((a, b) :: rest).getD t (0, 0)).1 := by
      intro t ht
      exact hcells t (by simpa using ht)
    have hbmod : b % 256 = b := Nat.mod_eq_of_lt hb2
    by_cases hab : a = b
    · -- skipped cell: no bytes are emitted and the look-back is loaded
      have hw : KeypadDisplayState.partialWalkLine i j ((a, b) :: rest) [] cur sk
          = KeypadDisplayState.partialWalkLine i (j + 1) rest [] cur (some b) := by
        simp only [KeypadDisplayState.partialWalkLine]
        rw [stepCell_skip i j a b [] cur sk hab]
      obtain ⟨σ', hrun, hA, hB, hsty, hcur2, hE⟩ :=
        ih (j + 1) σ cur (some b)
          (by omega)
          hvr
          (by intro t ht
              have harith : i * 0x40 + (j + 1) + t = i * 0x40 + j + (t + 1) := by omega
              rw [harith, hcells2 (t + 1) (by omega)]
              simp)
          hcur
          (by intro pc hpc
              obtain ⟨h1, h2⟩ := hcurb pc hpc
              exact ⟨by omega, h2⟩)
          (by intro pc hpc h1; simp)
          (by intro s hs
              injection hs with hs
              subst hs
              refine ⟨hb1, hb2, ?_⟩
              intro pc hpc hpc1
              have hpceq : pc = i * 0x40 + j := by omega
              rw [hpceq]
              have h0 := hcells2 0 (by omega)
              simp at h0
              rw [h0, hab])
      rw [hw]
      refine ⟨σ', hrun, ?_, ?_, hsty, hcur2, ?_⟩
      · intro t ht
        cases t with
        | zero =>
          have hfr := hB (i * 0x40 + j) (by intro t' ht'; omega)
          have h0 := hcells2 0 (by omega)
          simp at h0 ⊢
          rw [hfr, h0, hab]
        | succ t' =>
          have h1 := hA t' (by simp at ht; omega)
          have harith : i * 0x40 + (j + 1) + t' = i * 0x40 + j + (t' + 1) := by omega
          rw [harith] at h1
          simpa using h1
      · intro o ho
        exact hB o (by intro t' ht'; have := ho (t' + 1) (by simp; omega); omega)
      · intro pc hpc
        obtain ⟨h1, h2⟩ := hE pc hpc
        refine ⟨by simp; omega, h2⟩
    · cases cur with
      | none =>
        exact walk_step_far i hi a b rest j σ none sk ih hab hb1 hb2 hjlen hvr hcells2 hcur
          (by intro p hp; exact absurd hp (by simp))
      | some pc =>
        obtain ⟨hpcle, hpcd⟩ := hcurb pc rfl
        by_cases hpc0 : pc = i * 0x40 + j
        · -- cursor already at the cell: a bare data byte
          have hstep := stepCell_adjacent i j a b pc [] sk hab hpc0
          have hwsplit := walk_append i rest (j + 1) [b % 256] (some (i * 0x40 + j + 1)) none
          have hw : KeypadDisplayState.partialWalkLine i j ((a, b) :: rest) [] (some pc) sk
              = KeypadDisplayState.partialWalkLine i (j + 1) rest [b % 256]
                  (some (i * 0x40 + j + 1)) none := by
            simp only [KeypadDisplayState.partialWalkLine]
            rw [hstep]
            simp
          refine walk_step_write i a b rest j σ
              { σ with cells := fun o => if o = pc then b else σ.cells o,
                       cursor := some (pc + 1) }
              (some pc) sk [b % 256] ih hjlen hvr hcells2 ?_ ?_ ?_ ?_ ?_ ?_ ?_
          · rw [hw, hwsplit]
          · rw [hw, hwsplit]
          · intro Y
            rw [hbmod]
            exact applyBytes_data_some σ b pc hb1 hb2 Y hcur
          · show (if i * 0x40 + j = pc then b else σ.cells (i * 0x40 + j)) = b
            rw [if_pos (by omega)]
          · intro o ho
            show (if o = pc then b else σ.cells o) = σ.cells o
            rw [if_neg (by omega)]
          · show some (pc + 1) = some (i * 0x40 + j + 1)
            simp only [Option.some.injEq]
            omega
          · rfl
        · by_cases hpc1 : pc + 1 = i * 0x40 + j
          · -- cursor one behind: the skipped character is replayed first
            have hlk := hlook pc rfl hpc1
            cases sk with
            | none => simp at hlk
            | some s0 =>
              obtain ⟨hs1, hs2, hs3⟩ := hskip s0 rfl
              have hs4 := hs3 pc rfl hpc1
              have hsmod : s0 % 256 = s0 := Nat.mod_eq_of_lt hs2
              have hstep := stepCell_lookback i j a b pc s0 [] hab hpc1
              have hwsplit := walk_append i rest (j + 1) [s0 % 256, b % 256]
                  (some (i * 0x40 + j + 1)) none
              have hw : KeypadDisplayState.partialWalkLine i j ((a, b) :: rest) []
                    (some pc) (some s0)
                  = KeypadDisplayState.partialWalkLine i (j + 1) rest [s0 % 256, b % 256]
                      (some (i * 0x40 + j + 1)) none := by
                simp only [KeypadDisplayState.partialWalkLine]
                rw [hstep]
                simp
              refine walk_step_write i a b rest j σ
                  { σ with cells := fun o => if o = pc + 1 then b
                             else if o = pc then s0 else σ.cells o,
                           cursor := some (pc + 1 + 1) }
                  (some pc) (some s0) [s0 % 256, b % 256] ih hjlen hvr hcells2
                  ?_ ?_ ?_ ?_ ?_ ?_ ?_
              · rw [hw, hwsplit]
              · rw [hw, hwsplit]
              · intro Y
                rw [hsmod, hbmod]
                exact (applyBytes_data_some σ s0 pc hs1 hs2 (b :: Y) hcur).trans
                  (applyBytes_data_some _ b (pc + 1) hb1 hb2 Y rfl)
              · show (if i * 0x40 + j = pc + 1 then b
                      else if i * 0x40 + j = pc then s0 else σ.cells (i * 0x40 + j)) = b
                rw [if_pos (by omega)]
              · intro o ho
                show (if o = pc + 1 then b else if o = pc then s0 else σ.cells o) = σ.cells o
                rw [if_neg (by omega)]
                by_cases hop : o = pc
                · rw [if_pos hop, hop]
                  exact hs4.symm
                · rw [if_neg hop]
              · show some (pc + 1 + 1) = some (i * 0x40 + j + 1)
                simp only [Option.some.injEq]
                omega
              · rfl
          · exact walk_step_far i hi a b rest j σ (some pc) sk ih hab hb1 hb2 hjlen hvr
              hcells2 hcur
              (by intro p hp
                  injection hp with hp
                  omega)

theorem pad16_mem_bounds {l : List Nat} (hl : ∀ c ∈ l, 0x20 ≤ c ∧ c < 256) {c : Nat}
    (hc : c ∈ pad16 l) : 0x20 ≤ c ∧ c < 256 := by
  rcases pad16_mem hc with h | h
  · exact hl c h
  · rw [h]; exact ⟨le_refl _, by norm_num⟩

/-- C4: for every pair of display states with printable lines of at most 16
characters, replaying the byte sequence emitted by `partial_update` on a
simulator holding the screen rendered by the old state yields exactly the
screen rendered by the new state, including the final cursor style. -/
theorem partial_update_sound (s from_ : KeypadDisplayState)
    (hf0 : ∀ c ∈ from_.line0, 0x20 ≤ c ∧ c < 256)
    (hf1 : ∀ c ∈ from_.line1, 0x20 ≤ c ∧ c < 256)
    (hs0 : ∀ c ∈ s.line0, 0x20 ≤ c ∧ c < 256)
    (hs1 : ∀ c ∈ s.line1, 0x20 ≤ c ∧ c < 256)
    (hL0 : from_.line0.length ≤ 16) (hL1 : from_.line1.length ≤ 16)
    (hL2 : s.line0.length ≤ 16) (hL3 : s.line1.length ≤ 16) :
    (∀ o, (applyBytes
        { cells := renderCells from_, cursor := none, style := from_.cursor_style }
        (KeypadDisplayState.partial_update s from_).1).cells o = renderCells s o)
    ∧ (applyBytes
        { cells := renderCells from_, cursor := none, style := from_.cursor_style }
        (KeypadDisplayState.partial_update s from_).1).style = s.cursor_style := by
  set σ0 : Sim := { cells := renderCells from_, cursor := none,
                    style := from_.cursor_style } with hσ0def
  have hzipLen0 : ((pad16 from_.line0).zip (pad16 s.line0)).length = 16 := by
    rw [zip_length (by rw [pad16_length, pad16_length])]
    exact pad16_length _
  have hzipLen1 : ((pad16 from_.line1).zip (pad16 s.line1)).length = 16 := by
    rw [zip_length (by rw [pad16_length, pad16_length])]
    exact pad16_length _
  have hv0 : ∀ p ∈ (pad16 from_.line0).zip (pad16 s.line0),
      0x20 ≤ p.1 ∧ p.1 < 256 ∧ 0x20 ≤ p.2 ∧ p.2 < 256 := by
    intro p hp
    obtain ⟨x, y⟩ := p
    obtain ⟨h1, h2⟩ := List.of_mem_zip hp
    obtain ⟨h3, h4⟩ := pad16_mem_bounds hf0 h1
    obtain ⟨h5, h6⟩ := pad16_mem_bounds hs0 h2
    exact ⟨h3, h4, h5, h6⟩
  have hv1 : ∀ p ∈ (pad16 from_.line1).zip (pad16 s.line1),
      0x20 ≤ p.1 ∧ p.1 < 256 ∧ 0x20 ≤ p.2 ∧ p.2 < 256 := by
    intro p hp
    obtain ⟨x, y⟩ := p
    obtain ⟨h1, h2⟩ := List.of_mem_zip hp
    obtain ⟨h3, h4⟩ := pad16_mem_bounds hf1 h1
    obtain ⟨h5, h6⟩ := pad16_mem_bounds hs1 h2
    exact ⟨h3, h4, h5, h6⟩
  obtain ⟨σA, hrunA, hAA, hBA, hstyA, hcurA, hEA⟩ :=
    walkLine_sound 0 (by omega) ((pad16 from_.line0).zip (pad16 s.line0)) 0 σ0 none none
      (by simp [hzipLen0])
      hv0
      (by intro t ht
          rw [hzipLen0] at ht
          have harith : 0 * 0x40 + 0 + t = t := by omega
          rw [harith]
          show renderCells from_ t = _
          rw [renderCells_line0 from_ t ht, zip_pad16_getD _ _ t ht]
          dsimp only
          rw [Nat.mod_eq_of_lt (pad16_getD_bounds hf0 t).2])
      rfl
      (by intro pc hpc; exact absurd hpc (by simp))
      (by intro pc hpc h1; exact absurd hpc (by simp))
      (by intro s' hs'; exact absurd hs' (by simp))
  obtain ⟨σB, hrunB, hAB, hBB, hstyB, hcurB, hEB⟩ :=
    walkLine_sound 1 (by omega) ((pad16 from_.line1).zip (pad16 s.line1)) 0 σA
      (KeypadDisplayState.partialWalkLine 0 0
        ((pad16 from_.line0).zip (pad16 s.line0)) [] none none).2 none
      (by simp [hzipLen1])
      hv1
      (by intro t ht
          rw [hzipLen1] at ht
          rw [hBA (1 * 0x40 + 0 + t) (by intro t' ht'; rw [hzipLen0] at ht'; omega)]
          have harith : 1 * 0x40 + 0 + t = 0x40 + t := by omega
          rw [harith]
          show renderCells from_ (0x40 + t) = _
          rw [renderCells_line1 from_ (0x40 + t) (by omega) (by omega)]
          have harith2 : 0x40 + t - 0x40 = t := by omega
          rw [harith2, zip_pad16_getD _ _ t ht]
          dsimp only
          rw [Nat.mod_eq_of_lt (pad16_getD_bounds hf1 t).2])
      hcurA
      (by intro pc hpc
          obtain ⟨h1, h2⟩ := hEA pc hpc
          rw [hzipLen0] at h1
          exact ⟨by omega, Or.inr (by omega)⟩)
      (by intro pc hpc h1
          obtain ⟨h2, _⟩ := hEA pc hpc
          rw [hzipLen0] at h2
          exact absurd h1 (by omega))
      (by intro s' hs'; exact absurd hs' (by simp))
  have hcellsB : ∀ o, σB.cells o = renderCells s o := by
    intro o
    by_cases ho0 : o < 16
    · have h1 : σB.cells o = σA.cells o := by
        apply hBB
        intro t' ht'
        omega
      have h2 : σA.cells o
          = (((pad16 from_.line0).zip (pad16 s.line0)).getD o (0, 0)).2 := by
        have h3 := hAA o (by rw [hzipLen0]; exact ho0)
        have harith : 0 * 0x40 + 0 + o = o := by omega
        rwa [harith] at h3
      rw [h1, h2, zip_pad16_getD _ _ o ho0]
      dsimp only
      rw [renderCells_line0 s o ho0, Nat.mod_eq_of_lt (pad16_getD_bounds hs0 o).2]
    · by_cases ho1 : 0x40 ≤ o ∧ o < 0x50
      · obtain ⟨ho1a, ho1b⟩ := ho1
        have h2 : σB.cells o
            = (((pad16 from_.line1).zip (pad16 s.line1)).getD (o - 0x40) (0, 0)).2 := by
          have h3 := hAB (o - 0x40) (by rw [hzipLen1]; omega)
          have harith : 1 * 0x40 + 0 + (o - 0x40) = o := by omega
          rwa [harith] at h3
        rw [h2, zip_pad16_getD _ _ (o - 0x40) (by omega)]
        dsimp only
        rw [renderCells_line1 s o ho1a ho1b,
          Nat.mod_eq_of_lt (pad16_getD_bounds hs1 (o - 0x40)).2]
      · have h1 : σB.cells o = σA.cells o := by
          apply hBB
          intro t' ht'
          rw [hzipLen1] at ht'
          omega
        have h2 : σA.cells o = σ0.cells o := by
          apply hBA
          intro t' ht'
          rw [hzipLen0] at ht'
          omega
        rw [h1, h2]
        show renderCells from_ o = renderCells s o
        rw [renderCells_invalid from_ o ho0 ho1, renderCells_invalid s o ho0 ho1]
  have hpu : (KeypadDisplayState.partial_update s from_).1
      = ((KeypadDisplayState.partialWalkLine 0 0
            ((pad16 from_.line0).zip (pad16 s.line0)) [] none none).1
        ++ (KeypadDisplayState.partialWalkLine 1 0
            ((pad16 from_.line1).zip (pad16 s.line1)) []
            (KeypadDisplayState.partialWalkLine 0 0
              ((pad16 from_.line0).zip (pad16 s.line0)) [] none none).2 none).1)
        ++ (if from_.cursor_style ≠ s.cursor_style
            then [cursor_style_op_code s.cursor_style] else []) := by
    simp only [KeypadDisplayState.partial_update]
    rw [walk_append 1 ((pad16 from_.line1).zip (pad16 s.line1)) 0
        (KeypadDisplayState.partialWalkLine 0 0
          ((pad16 from_.line0).zip (pad16 s.line0)) [] none none).1
        (KeypadDisplayState.partialWalkLine 0 0
          ((pad16 from_.line0).zip (pad16 s.line0)) [] none none).2 none]
  have hD : applyBytes σ0 (KeypadDisplayState.partial_update s from_).1
      = applyBytes σB (if from_.cursor_style ≠ s.cursor_style
          then [cursor_style_op_code s.cursor_style] else []) := by
    rw [hpu, List.append_assoc, hrunA, hrunB]
  have htail : ∃ σF : Sim, applyBytes σB (if from_.cursor_style ≠ s.cursor_style
      then [cursor_style_op_code s.cursor_style] else []) = σF
      ∧ (∀ o, σF.cells o = σB.cells o) ∧ σF.style = s.cursor_style := by
    by_cases hst : from_.cursor_style = s.cursor_style
    · refine ⟨σB, by simp [hst, applyBytes_nil], fun o => rfl, ?_⟩
      rw [hstyB, hstyA]
      exact hst
    · rw [if_pos hst]
      cases hsc : s.cursor_style with
      | None =>
        exact ⟨{ σB with style := CursorStyle.None },
          (applyBytes_op7 σB []).trans (applyBytes_nil _), fun o => rfl, rfl⟩
      | Block =>
        exact ⟨{ σB with style := CursorStyle.Block },
          (applyBytes_op6 σB []).trans (applyBytes_nil _), fun o => rfl, rfl⟩
      | Underline =>
        exact ⟨{ σB with style := CursorStyle.Underline },
          (applyBytes_op16 σB []).trans (applyBytes_nil _), fun o => rfl, rfl⟩
  obtain ⟨σF, hF1, hF2, hF3⟩ := htail
  constructor
  · intro o
    rw [hD, hF1, hF2]
    exact hcellsB o
  · rw [hD, hF1, hF3]

/-- C4 witness: replaying the partial update from line "A" (no cursor
style) to line "B" (block cursor) writes 0x42 into cell 0 and leaves the
simulator in the block cursor style. -/
theorem partial_update_sound_witness :
    (applyBytes
      { cells := renderCells ⟨[0x41], [], none, CursorStyle.None⟩
        cursor := none
        style := CursorStyle.None }
      (KeypadDisplayState.partial_update ⟨[0x42], [], none, CursorStyle.Block⟩
        ⟨[0x41], [], none, CursorStyle.None⟩).1).cells 0 = 0x42
    ∧ (applyBytes
      { cells := renderCells ⟨[0x41], [], none, CursorStyle.None⟩
        cursor := none
        style := CursorStyle.None }
      (KeypadDisplayState.partial_update ⟨[0x42], [], none, CursorStyle.Block⟩
        ⟨[0x41], [], none, CursorStyle.None⟩).1).style = CursorStyle.Block :=
  ⟨((partial_update_sound ⟨[0x42], [], none, CursorStyle.Block⟩
      ⟨[0x41], [], none, CursorStyle.None⟩
      (by decide) (by decide) (by decide) (by decide)
      (by decide) (by decide) (by decide) (by decide)).1 0).trans (by decide),
   (partial_update_sound ⟨[0x42], [], none, CursorStyle.Block⟩
      ⟨[0x41], [], none, CursorStyle.None⟩
      (by decide) (by decide) (by decide) (by decide)
      (by decide) (by decide) (by decide) (by decide)).2⟩

/-- C4 counterexample: with an unrestricted character set the claim fails.
A target line whose first character is the control byte 0x01 emits that
byte as screen data; the simulator interprets it as the home-cursor opcode,
so cell 0 keeps the old space (0x20) while the target screen renders 0x01
there. -/
theorem partial_update_control_counterexample :
    (applyBytes
      { cells := renderCells ⟨[], [], none, CursorStyle.None⟩
        cursor := none
        style := CursorStyle.None }
      (KeypadDisplayState.partial_update ⟨[0x01], [], none, CursorStyle.None⟩
        ⟨[], [], none, CursorStyle.None⟩).1).cells 0 = 0x20
    ∧ renderCells ⟨[0x01], [], none, CursorStyle.None⟩ 0 = 0x01 :=
  ⟨by decide, by decide⟩

end Galaxy
